import Mathlib

/-!
Verification development for the GreenXHeatmeter heat-pump monitoring core
(`GreenXHeatmeter/core_logic.py`): the mode classifier, the sample
persistence / summarization engine, the day segmentation algorithm, the
offline-gap backfiller and the month/year/total roll-ups.

Python floats are modelled as exact rationals (`ℚ`); nullable values as
`Option`; UTC second timestamps as `ℤ`; SQL tables as lists of rows.
-/

namespace HeatPump

/-- Operating-mode / boundary status labels stored in the `status` column:
`S`tandby, `H`eating, `C`ooling, `D`efrost and the boundary events `ON`/`OFF`. -/
inductive Status where
  | S
  | H
  | C
  | D
  | ON
  | OFF
deriving DecidableEq, Fintype

/-- The accumulating statuses `{"S","H","C","D"}` (`allowed_status` in
`build_day_summary_for_date`); `ON`/`OFF` are boundary events. -/
def Status.isAccum : Status → Bool
  | .S => true
  | .H => true
  | .C => true
  | .D => true
  | _ => false

/-- `XSEC = 5` — main logic check interval (seconds). -/
def XSEC : ℚ := 5

/-- `ZSEC = 10` — same non-standby status logging interval (seconds). -/
def ZSEC : ℚ := 10

/-- `YSEC = 300` — standby periodic logging interval (seconds). -/
def YSEC : ℚ := 300

/-- `HPWORK = 300` W — high power threshold. -/
def HPWORK : ℚ := 300

/-- `HPWORKMIN = 90` W — low power threshold. -/
def HPWORKMIN : ℚ := 90

/-- `HPFLOW = 0.2` m³/h — flow threshold. -/
def HPFLOW : ℚ := 1/5

/-- `HPDT = 0.02` °C — temperature differential threshold. -/
def HPDT : ℚ := 1/50

/-- `HPAMB = 20` °C — ambient temperature threshold. -/
def HPAMB : ℚ := 20

/-- Round-half-to-even of a rational to an integer, as Python's `round`
does on the value of a float. -/
def roundHalfEven (q : ℚ) : ℤ :=
  if q - ⌊q⌋ = 1/2 then (if ⌊q⌋ % 2 = 0 then ⌊q⌋ else ⌊q⌋ + 1) else round q

/-- `round2` from `core_logic.py`: round a value to 2 decimal places. -/
def round2 (q : ℚ) : ℚ := (roundHalfEven (q * 100) : ℚ) / 100

/-- `round2` applied to a nullable value (`round2(None)` is `None`). -/
def round2opt (q : Option ℚ) : Option ℚ := q.map round2

/-- A snapshot of the shared `STORE` dictionary: every field a poller may
have written, `none` when the key has never been populated. -/
structure Snapshot where
  em_activepower : Option ℚ := none
  em_total_fwd : Option ℚ := none
  hm_activepower : Option ℚ := none
  hm_positive_kwh : Option ℚ := none
  hm_negative_kwh : Option ℚ := none
  hm_temp_IN : Option ℚ := none
  hm_temp_OUT : Option ℚ := none
  hm_temp_diff : Option ℚ := none
  hm_activeflow_m3h : Option ℚ := none
  hm_flow_m3h : Option ℚ := none
  hm_totalflow : Option ℚ := none
  hm_fault_code : Option ℤ := none
  hm_work_h : Option ℚ := none
  ts_ambient_temp : Option ℚ := none
  ts_ambient_humidity : Option ℚ := none
deriving DecidableEq

/-- Python's `a or b` for a nullable numeric `a` and plain default `b`:
`None` and `0.0` are falsy and select `b`. -/
def orFalsy (a : Option ℚ) (b : ℚ) : ℚ :=
  match a with
  | some x => if x = 0 then b else x
  | none => b

/-- Python's `a or b` for two nullable numerics (used in the falsy chain
`d.get("hm_activeflow_m3h") or d.get("hm_flow_m3h") or 0.0`). -/
def orFalsyOpt (a b : Option ℚ) : Option ℚ :=
  match a with
  | some x => if x = 0 then b else some x
  | none => b

/-- `DBWriterSQLite.compute_logical_status`: the Mode Classifier, a pure
function of the current snapshot and the previous logical status
(`self.last_logical_status`), with first-match-wins branch order. -/
def computeLogicalStatus (d : Snapshot) (lastLogical : Option Status) : Status :=
  let emP := orFalsy d.em_activepower 0
  let flow := orFalsy (orFalsyOpt d.hm_activeflow_m3h d.hm_flow_m3h) 0
  if emP > HPWORK ∧ flow > 0 then
    match d.hm_temp_IN, d.hm_temp_OUT with
    | some tIn, some tOut =>
      if tIn > tOut + HPDT then Status.H
      else if tIn + HPDT < tOut then
        (match d.ts_ambient_temp with
         | some amb => if amb < HPAMB then Status.D else Status.C
         | none => Status.C)
      else lastLogical.getD Status.S
    | _, _ => lastLogical.getD Status.S
  else if emP > HPWORKMIN ∧ flow > HPFLOW then lastLogical.getD Status.S
  else Status.S

/-- Reference snapshot for the Heating case: power 400 W, flow 0.5 m³/h,
inlet 45 °C, outlet 35 °C, ambient 15 °C. -/
def snapHeating : Snapshot :=
  { em_activepower := some 400, hm_activeflow_m3h := some (1/2),
    hm_temp_IN := some 45, hm_temp_OUT := some 35, ts_ambient_temp := some 15 }

/-- Reference snapshot for the Defrost case: power 400 W, flow 0.5 m³/h,
inlet 35 °C, outlet 45 °C, ambient 5 °C. -/
def snapDefrost : Snapshot :=
  { em_activepower := some 400, hm_activeflow_m3h := some (1/2),
    hm_temp_IN := some 35, hm_temp_OUT := some 45, ts_ambient_temp := some 5 }

/-- Reference snapshot for the Cooling case: same as the Defrost case but
ambient 25 °C. -/
def snapCooling : Snapshot :=
  { em_activepower := some 400, hm_activeflow_m3h := some (1/2),
    hm_temp_IN := some 35, hm_temp_OUT := some 45, ts_ambient_temp := some 25 }

/-- Reference snapshot for the Standby case: power 50 W, flow 0. -/
def snapStandby : Snapshot :=
  { em_activepower := some 50, hm_activeflow_m3h := some 0 }

/-- Claim C3: the Mode Classifier is a pure function of (snapshot, previous
mode) — by construction of `computeLogicalStatus` — with first-match-wins
branch order, and on the spec's reference inputs it returns Heating for
(power=400 W, flow=0.5, inlet=45, outlet=35, ambient=15, prev=Standby);
Defrost for (400, 0.5, 35, 45, ambient=5); Cooling for the same inputs with
ambient=25; and Standby for (power=50, flow=0) regardless of the previous
mode. -/
theorem classifier_reference_inputs :
    computeLogicalStatus snapHeating (some Status.S) = Status.H
    ∧ (∀ prev : Option Status, computeLogicalStatus snapDefrost prev = Status.D)
    ∧ (∀ prev : Option Status, computeLogicalStatus snapCooling prev = Status.C)
    ∧ (∀ prev : Option Status, computeLogicalStatus snapStandby prev = Status.S) := by
  refine ⟨?_, fun prev => ?_, fun prev => ?_, fun prev => ?_⟩ <;>
    · dsimp only [computeLogicalStatus, snapHeating, snapDefrost, snapCooling,
        snapStandby, orFalsy, orFalsyOpt, HPWORK, HPWORKMIN, HPFLOW, HPDT, HPAMB]
      norm_num

/-- A row of the `hp_samples` table (`TABLE_SAMPLES`), keyed by integer UTC
second timestamp. -/
structure SampleRow where
  ts : ℤ
  status : Status
  em_activepower : Option ℚ := none
  em_total_fwd : Option ℚ := none
  hm_activepower : Option ℚ := none
  hm_positive_kwh : Option ℚ := none
  hm_negative_kwh : Option ℚ := none
  hm_temp_IN : Option ℚ := none
  hm_temp_OUT : Option ℚ := none
  hm_temp_diff : Option ℚ := none
  hm_activeflow_m3h : Option ℚ := none
  hm_totalflow : Option ℚ := none
  hm_fault_code : Option ℤ := none
  hm_work_h : Option ℚ := none
  ts_ambient_temp : Option ℚ := none
  ts_ambient_humidity : Option ℚ := none
deriving DecidableEq

/-- `DBWriterSQLite.insert_sample`: build the `hp_samples` row written for a
snapshot, status and timestamp (numeric fields rounded to 2 decimals by `g`;
`hm_fault_code` and `hm_work_h` taken raw). -/
def insertSampleRow (d : Snapshot) (status : Status) (ts : ℤ) : SampleRow :=
  { ts := ts
    status := status
    em_activepower := round2opt d.em_activepower
    em_total_fwd := round2opt d.em_total_fwd
    hm_activepower := round2opt d.hm_activepower
    hm_positive_kwh := round2opt d.hm_positive_kwh
    hm_negative_kwh := round2opt d.hm_negative_kwh
    hm_temp_IN := round2opt d.hm_temp_IN
    hm_temp_OUT := round2opt d.hm_temp_OUT
    hm_temp_diff := round2opt d.hm_temp_diff
    hm_activeflow_m3h := round2opt d.hm_activeflow_m3h
    hm_totalflow := round2opt d.hm_totalflow
    hm_fault_code := d.hm_fault_code
    hm_work_h := d.hm_work_h
    ts_ambient_temp := round2opt d.ts_ambient_temp
    ts_ambient_humidity := round2opt d.ts_ambient_humidity }

/-- The site timezone (`ROMANIA_TZ` / `zoneinfo`), abstracted to the two
operations the core logic uses: the local calendar day of a UTC instant, and
the UTC instant of a local day's midnight. -/
structure Tz where
  dayOf : ℤ → ℤ
  midnight : ℤ → ℤ

/-- What it means for a `Tz` to be a coherent civil-time conversion: local
days are the half-open spans between consecutive local midnights. -/
structure Tz.Valid (tz : Tz) : Prop where
  mono : ∀ d : ℤ, tz.midnight d < tz.midnight (d + 1)
  day_spec : ∀ t d : ℤ, tz.dayOf t = d ↔ tz.midnight d ≤ t ∧ t < tz.midnight (d + 1)

/-- A concrete valid timezone whose local midnights coincide with UTC
midnights (used to instantiate theorems at concrete inputs). -/
def utcTz : Tz where
  dayOf t := t / 86400
  midnight d := 86400 * d

/-- `utcTz` is a coherent civil-time conversion. -/
theorem utcTz_valid : utcTz.Valid where
  mono d := by unfold utcTz; dsimp; omega
  day_spec t d := by unfold utcTz; dsimp; omega

/-- `DBWriterSQLite.compute_offline_segments`: split the offline gap
`[startTs, endTs]` into per-local-day OFF intervals at local midnight
boundaries. Each produced entry is `(local day, segment start, segment end)`
in UTC seconds; the result models `self.offline_segments`. -/
def computeOfflineSegments (tz : Tz) (startTs endTs : ℤ) : List (ℤ × ℤ × ℤ) :=
  if endTs ≤ startTs then []
  else
    let d0 := tz.dayOf startTs
    let d1 := tz.dayOf endTs
    (List.range (d1 - d0 + 1).toNat).filterMap fun (k : ℕ) =>
      let d : ℤ := d0 + (k : ℤ)
      let segStart := if d = d0 then startTs else tz.midnight d
      let segEnd := if d = d1 then endTs else tz.midnight (d + 1)
      if segStart < segEnd then some (d, segStart, segEnd) else none

/-- A row of the `day_summary` table (`TABLE_DAY`). The `day_date` string
`"YYYY-MM-DD"` is modelled by the local day number `day`. -/
structure DayRow where
  day : ℤ
  day_start_utc_s : ℤ
  status : Status
  start_ts_utc_s : ℤ
  end_ts_utc_s : ℤ
  total_time_s : ℤ
  consumption_kw : Option ℚ := none
  positive_kw : Option ℚ := none
  negative_kw : Option ℚ := none
  hp_temp_in : Option ℚ := none
  hp_temp_out : Option ℚ := none
  hp_temp_diff : Option ℚ := none
  hp_activeflow_m3h : Option ℚ := none
  hp_totalflow : Option ℚ := none
  ts_ambient_temp : Option ℚ := none
  ts_ambient_humidity : Option ℚ := none
deriving DecidableEq

/-- The SQL query `SELECT ts_utc_s FROM hp_samples WHERE ts_utc_s < ? AND
status NOT IN ('ON','OFF') ORDER BY ts_utc_s DESC LIMIT 1`: the timestamp of
the most recent non-boundary sample strictly before `t`. -/
def lastNonBoundaryTsBefore (samples : List SampleRow) (t : ℤ) : Option ℤ :=
  (samples.filter fun r =>
      decide (r.ts < t) && r.status.isAccum).foldl
    (fun acc r =>
      match acc with
      | none => some r.ts
      | some m => some (max m r.ts)) none

/-- The SQL query `SELECT ts_utc_s FROM hp_samples WHERE status NOT IN
('ON','OFF') ORDER BY ts_utc_s DESC LIMIT 1`: the timestamp of the most
recent non-boundary sample ever written. -/
def lastNonBoundaryTs (samples : List SampleRow) : Option ℤ :=
  (samples.filter fun r => r.status.isAccum).foldl
    (fun acc r =>
      match acc with
      | none => some r.ts
      | some m => some (max m r.ts)) none

/-- Nullable subtraction: `(a - b) if a is not None and b is not None else
None`. -/
def subOpt (a b : Option ℚ) : Option ℚ :=
  match a, b with
  | some x, some y => some (x - y)
  | _, _ => none

/-- The `avg(col_idx)` closure of `_store_day_segment`: the arithmetic mean
(rounded to 2 decimals) of the non-null values of a field over the rows of
the slice whose own status matches the segment's status, `None` when no row
qualifies. -/
def segAvg (seg : List SampleRow) (st : Status) (f : SampleRow → Option ℚ) :
    Option ℚ :=
  match seg.filterMap fun r => if r.status = st then f r else none with
  | [] => none
  | vs => some (round2 (vs.sum / (vs.length : ℚ)))

/-- `DBWriterSQLite._store_day_segment`: build the DaySegment row for the
run `rows[iStart..iEnd]`, or `none` when one of the guards
(`i_end <= i_start`, non-accumulating status, `ts_end <= ts_start`) fires. -/
def storeDaySegment (d dayStartUtc : ℤ) (rows : List SampleRow)
    (iStart iEnd : ℕ) : Option DayRow :=
  if iEnd ≤ iStart then none
  else
    match rows.get? iStart, rows.get? iEnd with
    | some first, some last =>
      if ¬ first.status.isAccum then none
      else if last.ts ≤ first.ts then none
      else
        some
          { day := d
            day_start_utc_s := dayStartUtc
            status := first.status
            start_ts_utc_s := first.ts
            end_ts_utc_s := last.ts
            total_time_s := last.ts - first.ts
            consumption_kw := round2opt (subOpt last.em_total_fwd first.em_total_fwd)
            positive_kw := round2opt (subOpt last.hm_positive_kwh first.hm_positive_kwh)
            negative_kw := round2opt (subOpt last.hm_negative_kwh first.hm_negative_kwh)
            hp_temp_in := segAvg ((rows.drop iStart).take (iEnd - iStart + 1))
              first.status (fun r => r.hm_temp_IN)
            hp_temp_out := segAvg ((rows.drop iStart).take (iEnd - iStart + 1))
              first.status (fun r => r.hm_temp_OUT)
            hp_temp_diff := segAvg ((rows.drop iStart).take (iEnd - iStart + 1))
              first.status (fun r => r.hm_temp_diff)
            hp_activeflow_m3h := segAvg ((rows.drop iStart).take (iEnd - iStart + 1))
              first.status (fun r => r.hm_activeflow_m3h)
            hp_totalflow := round2opt (subOpt last.hm_totalflow first.hm_totalflow)
            ts_ambient_temp := segAvg ((rows.drop iStart).take (iEnd - iStart + 1))
              first.status (fun r => r.ts_ambient_temp)
            ts_ambient_humidity := segAvg ((rows.drop iStart).take (iEnd - iStart + 1))
              first.status (fun r => r.ts_ambient_humidity) }
    | _, _ => none

/-- The segment grouping loop of `build_day_summary_for_date` (step 2):
scan the day's rows in order, tracking the open run
`(segment_start_idx, segment_status)`; a differing accumulating status or a
boundary row closes the run at index `i - 1`, and a run still open at the
end closes at index `len(rows) - 1`. -/
def segLoopAux (d dayStartUtc : ℤ) (rows : List SampleRow) :
    List (ℕ × SampleRow) → Option (ℕ × Status) → List DayRow
  | [], open? =>
    match open? with
    | some (s, _) => (storeDaySegment d dayStartUtc rows s (rows.length - 1)).toList
    | none => []
  | (i, r) :: rest, open? =>
    if r.status.isAccum then
      match open? with
      | none => segLoopAux d dayStartUtc rows rest (some (i, r.status))
      | some (s, sst) =>
        if r.status = sst then segLoopAux d dayStartUtc rows rest (some (s, sst))
        else
          (storeDaySegment d dayStartUtc rows s (i - 1)).toList
            ++ segLoopAux d dayStartUtc rows rest (some (i, r.status))
    else
      match open? with
      | some (s, _) =>
        (storeDaySegment d dayStartUtc rows s (i - 1)).toList
          ++ segLoopAux d dayStartUtc rows rest none
      | none => segLoopAux d dayStartUtc rows rest none

/-- The S/H/C/D segment rows produced for one day's ordered sample rows. -/
def segScan (d dayStartUtc : ℤ) (rows : List SampleRow) : List DayRow :=
  segLoopAux d dayStartUtc rows rows.enum none

/-- The zero-duration ON marker row of `build_day_summary_for_date`
(step 1): synthetic start at the most recent non-boundary sample before the
ON sample (or the ON sample itself, if none), `total_time_s = 0`, no energy
deltas, instantaneous readings rounded. -/
def onMarkerRow (samples : List SampleRow) (d dayStartUtc : ℤ)
    (r : SampleRow) : DayRow :=
  { day := d
    day_start_utc_s := dayStartUtc
    status := Status.ON
    start_ts_utc_s := (lastNonBoundaryTsBefore samples r.ts).getD r.ts
    end_ts_utc_s := r.ts
    total_time_s := 0
    consumption_kw := none
    positive_kw := none
    negative_kw := none
    hp_temp_in := round2opt r.hm_temp_IN
    hp_temp_out := round2opt r.hm_temp_OUT
    hp_temp_diff := round2opt r.hm_temp_diff
    hp_activeflow_m3h := round2opt r.hm_activeflow_m3h
    hp_totalflow := round2opt r.hm_totalflow
    ts_ambient_temp := round2opt r.ts_ambient_temp
    ts_ambient_humidity := round2opt r.ts_ambient_humidity }

/-- An OFF row of `build_day_summary_for_date` (step 3): a pre-computed
offline interval, skipped when degenerate and clipped to the day's UTC
bounds. -/
def offRow (d dayStartUtc dayEndUtc segStart segEnd : ℤ) : Option DayRow :=
  if segEnd ≤ segStart then none
  else if min segEnd dayEndUtc ≤ max segStart dayStartUtc then none
  else
    some
      { day := d
        day_start_utc_s := dayStartUtc
        status := Status.OFF
        start_ts_utc_s := max segStart dayStartUtc
        end_ts_utc_s := min segEnd dayEndUtc
        total_time_s := min segEnd dayEndUtc - max segStart dayStartUtc }

/-- Insert a sample row into a list ordered by ascending timestamp. -/
def insertByTs (r : SampleRow) : List SampleRow → List SampleRow
  | [] => [r]
  | x :: xs => if r.ts < x.ts then r :: x :: xs else x :: insertByTs r xs

/-- `ORDER BY ts_utc_s ASC`: sort sample rows by timestamp. -/
def sortByTs (l : List SampleRow) : List SampleRow :=
  l.foldr insertByTs []

/-- `DBWriterSQLite.build_day_summary_for_date`, as the list of
`day_summary` rows inserted for local day `d`: the day's sample rows are
the table rows with `midnight d ≤ ts ≤ midnight (d+1)` ordered by
timestamp; the inserted rows are the ON markers, then the S/H/C/D
segments, then the clipped OFF intervals recorded for this day. -/
def computeDayRows (tz : Tz) (samples : List SampleRow)
    (offMap : List (ℤ × ℤ × ℤ)) (d : ℤ) : List DayRow :=
  let startUtc := tz.midnight d
  let endUtc := tz.midnight (d + 1)
  let rows := sortByTs (samples.filter fun r =>
    decide (startUtc ≤ r.ts) && decide (r.ts ≤ endUtc))
  let onRows := rows.filterMap fun r =>
    if r.status = Status.ON then some (onMarkerRow samples d startUtc r) else none
  let segRows := segScan d startUtc rows
  let offRows := (offMap.filter fun p => p.1 = d).filterMap fun p =>
    offRow d startUtc endUtc p.2.1 p.2.2
  onRows ++ segRows ++ offRows

/-- Two `day_summary` rows collide on the primary key
`(day_date, status, start_ts_utc_s)`. -/
def dayKeyEq (a b : DayRow) : Bool :=
  decide (a.day = b.day) && decide (a.status = b.status)
    && decide (a.start_ts_utc_s = b.start_ts_utc_s)

/-- `INSERT OR REPLACE` into the `day_summary` table: drop any row with the
same primary key, then append the new row. -/
def upsertDay (t : List DayRow) (r : DayRow) : List DayRow :=
  (t.filter fun x => ¬ dayKeyEq x r) ++ [r]

/-- The full effect of `build_day_summary_for_date` on the `day_summary`
table: delete every row of day `d`, then insert the recomputed rows. -/
def buildDaySummary (tz : Tz) (dayTable : List DayRow)
    (samples : List SampleRow) (offMap : List (ℤ × ℤ × ℤ)) (d : ℤ) :
    List DayRow :=
  (computeDayRows tz samples offMap d).foldl upsertDay
    (dayTable.filter fun r => ¬ (r.day = d))

/-- A day of samples exercising a status change inside the day: a Heating
run at 1000 s and 1010 s followed by a Defrost run at 1020 s and 1030 s
(all within local day 0 of `utcTz`; measurement fields never populated). -/
def c1samples : List SampleRow :=
  [ { ts := 1000, status := Status.H }, { ts := 1010, status := Status.H },
    { ts := 1020, status := Status.D }, { ts := 1030, status := Status.D } ]

/-- Claim C1 (refuting evaluation): on the day
`H@1000, H@1010, D@1020, D@1030` the Day Segmentation Algorithm stores the
Heating segment with end row `1010` — the *last same-status* row — not the
closing row `1020` (the first differing row) that the claim (and
`_store_day_segment`'s own docstring) prescribe; the interval
`[1010, 1020]` belongs to no stored segment. The calls at
`core_logic.py:616` and `:626` pass `i - 1` instead of `i`. -/
theorem segment_end_misses_closing_row :
    computeDayRows utcTz c1samples [] 0 =
      [ { day := 0, day_start_utc_s := 0, status := Status.H,
          start_ts_utc_s := 1000, end_ts_utc_s := 1010, total_time_s := 10 },
        { day := 0, day_start_utc_s := 0, status := Status.D,
          start_ts_utc_s := 1020, end_ts_utc_s := 1030, total_time_s := 10 } ]
    ∧ ∀ r ∈ computeDayRows utcTz c1samples [] 0,
        ¬ (r.status = Status.H ∧ r.end_ts_utc_s = 1020) := by
  decide

/-- A gap-free day of samples: consecutive rows exactly one tick (5 s)
apart, with two status changes (`H,H,C,C,H,H` at 0..25 s, local day 0 of
`utcTz`). -/
def c2samples : List SampleRow :=
  [ { ts := 0, status := Status.H }, { ts := 5, status := Status.H },
    { ts := 10, status := Status.C }, { ts := 15, status := Status.C },
    { ts := 20, status := Status.H }, { ts := 25, status := Status.H } ]

/-- Claim C2 (refuting evaluation): on a day whose samples are all exactly
one tick (5 s) apart — no coverage gaps — the DaySegment durations sum to
15 s while the span between the day's first and last covering rows (0 s and
25 s) is 25 s: the shortfall of 10 s exceeds one tick interval, because one
inter-row interval is dropped at each of the two status changes. -/
theorem duration_conservation_violated :
    ((c2samples.zip c2samples.tail).all fun p =>
        decide (p.1.ts < p.2.ts) && decide (p.2.ts - p.1.ts ≤ 5)) = true
    ∧ (c2samples.map fun r => r.ts).min? = some 0
    ∧ (c2samples.map fun r => r.ts).max? = some 25
    ∧ ((computeDayRows utcTz c2samples [] 0).map fun r => r.total_time_s).sum = 15
    ∧ (∀ r ∈ computeDayRows utcTz c2samples [] 0, ¬ (r.status = Status.ON))
    ∧ ¬ ((25 : ℤ) - 0 - 15 ≤ 5) := by
  decide

/-- Inversion for `storeDaySegment`: a produced row carries the first row's
accumulating status, the endpoints' timestamps (strictly increasing), and
their difference as duration. -/
theorem storeDaySegment_eq_some {d ds : ℤ} {rows : List SampleRow}
    {iS iE : ℕ} {r : DayRow}
    (h : storeDaySegment d ds rows iS iE = some r) :
    r.day = d ∧ r.day_start_utc_s = ds ∧ r.status.isAccum = true
      ∧ r.start_ts_utc_s < r.end_ts_utc_s
      ∧ r.total_time_s = r.end_ts_utc_s - r.start_ts_utc_s := by
  unfold storeDaySegment at h
  split at h
  · exact absurd h (by simp)
  · split at h
    · split at h
      · exact absurd h (by simp)
      · split at h
        · exact absurd h (by simp)
        · rename_i first last hAccum hts
          obtain rfl : _ = r := Option.some_injective _ h
          refine ⟨rfl, rfl, by simpa using hAccum, ?_, ?_⟩ <;> (dsimp only; try omega)
    · exact absurd h (by simp)

/-- Degenerate runs: `storeDaySegment` refuses `i_end <= i_start`, so a
run of a single row produces no DaySegment. -/
theorem storeDaySegment_single {d ds : ℤ} {rows : List SampleRow} {i : ℕ} :
    storeDaySegment d ds rows i i = none := by
  unfold storeDaySegment
  simp

/-- Every row emitted by the segment-scanning loop comes from some
`storeDaySegment` call. -/
theorem segLoopAux_mem {d ds : ℤ} {rows : List SampleRow} :
    ∀ (L : List (ℕ × SampleRow)) (o : Option (ℕ × Status)) (r : DayRow),
      r ∈ segLoopAux d ds rows L o →
      ∃ iS iE, storeDaySegment d ds rows iS iE = some r := by
  intro L
  induction L with
  | nil =>
    intro o r hr
    unfold segLoopAux at hr
    match o with
    | some (s, sst) =>
      refine ⟨s, rows.length - 1, ?_⟩
      simpa [Option.mem_toList] using hr
    | none => simp at hr
  | cons p rest ih =>
    intro o r hr
    obtain ⟨i, row⟩ := p
    unfold segLoopAux at hr
    split at hr
    · match o with
      | none => exact ih _ r hr
      | some (s, sst) =>
        dsimp at hr
        split at hr
        · exact ih _ r hr
        · rcases List.mem_append.mp hr with hl | hrr
          · exact ⟨s, i - 1, by simpa [Option.mem_toList] using hl⟩
          · exact ih _ r hrr
    · match o with
      | some (s, sst) =>
        rcases List.mem_append.mp hr with hl | hrr
        · exact ⟨s, i - 1, by simpa [Option.mem_toList] using hl⟩
        · exact ih _ r hrr
      | none => exact ih _ r hr

/-- Inversion for `offRow`: a produced row is an OFF row of day `d` with a
strictly positive clipped span as duration. -/
theorem offRow_eq_some {d ds de a b : ℤ} {r : DayRow}
    (h : offRow d ds de a b = some r) :
    r.day = d ∧ r.day_start_utc_s = ds ∧ r.status = Status.OFF
      ∧ r.start_ts_utc_s < r.end_ts_utc_s
      ∧ r.total_time_s = r.end_ts_utc_s - r.start_ts_utc_s := by
  unfold offRow at h
  split at h
  · exact absurd h (by simp)
  · split at h
    · exact absurd h (by simp)
    · rename_i h1 h2
      obtain rfl : _ = r := Option.some_injective _ h
      refine ⟨rfl, rfl, rfl, ?_, ?_⟩ <;> (dsimp only; try omega)

/-- Case analysis on membership in `computeDayRows`: every inserted row is
an ON marker, an S/H/C/D segment or a clipped OFF interval. -/
theorem computeDayRows_cases {tz : Tz} {samples : List SampleRow}
    {offMap : List (ℤ × ℤ × ℤ)} {d : ℤ} {r : DayRow}
    (h : r ∈ computeDayRows tz samples offMap d) :
    (∃ s, r = onMarkerRow samples d (tz.midnight d) s)
    ∨ (∃ iS iE, storeDaySegment d (tz.midnight d)
          (sortByTs (samples.filter fun s =>
            decide (tz.midnight d ≤ s.ts) && decide (s.ts ≤ tz.midnight (d+1))))
          iS iE = some r)
    ∨ (∃ a b, offRow d (tz.midnight d) (tz.midnight (d+1)) a b = some r) := by
  unfold computeDayRows at h
  rcases List.mem_append.mp h with h1 | h2
  · rcases List.mem_append.mp h1 with hOn | hSeg
    · obtain ⟨s, _, hs⟩ := List.mem_filterMap.mp hOn
      left
      split at hs
      · exact ⟨s, (Option.some_injective _ hs).symm⟩
      · exact absurd hs (by simp)
    · right; left
      exact segLoopAux_mem _ _ r hSeg
  · right; right
    obtain ⟨p, _, hp⟩ := List.mem_filterMap.mp h2
    exact ⟨p.2.1, p.2.2, hp⟩

/-- Claim C10: every DaySegment row stored for an accumulating status
(S/H/C/D) has an end timestamp strictly greater than its start, hence
strictly positive duration; and a maximal run consisting of exactly one
sample row produces no DaySegment at all (`storeDaySegment` with
`i_end = i_start` yields nothing). -/
theorem accumulating_segments_positive_duration :
    (∀ (tz : Tz) (samples : List SampleRow) (offMap : List (ℤ × ℤ × ℤ))
        (d : ℤ) (r : DayRow), r ∈ computeDayRows tz samples offMap d →
        r.status.isAccum = true →
        r.start_ts_utc_s < r.end_ts_utc_s ∧ 0 < r.total_time_s)
    ∧ (∀ (d ds : ℤ) (rows : List SampleRow) (i : ℕ),
        storeDaySegment d ds rows i i = none) := by
  constructor
  · intro tz samples offMap d r hmem hAccum
    rcases computeDayRows_cases hmem with ⟨s, rfl⟩ | ⟨iS, iE, hseg⟩ | ⟨a, b, hoff⟩
    · simp [onMarkerRow, Status.isAccum] at hAccum
    · obtain ⟨-, -, -, hlt, hdur⟩ := storeDaySegment_eq_some hseg
      exact ⟨hlt, by omega⟩
    · obtain ⟨-, -, hst, -, -⟩ := offRow_eq_some hoff
      rw [hst] at hAccum
      simp [Status.isAccum] at hAccum
  · intro d ds rows i
    exact storeDaySegment_single

/-- Witness for C10 at a concrete input: a two-row Standby run on local
day 0 of `utcTz` produces one segment, and it has strictly positive
duration. -/
theorem accumulating_segments_positive_duration_witness :
    ∀ r ∈ computeDayRows utcTz
        [ { ts := 10, status := Status.S }, { ts := 20, status := Status.S } ]
        [] 0,
      r.start_ts_utc_s < r.end_ts_utc_s ∧ 0 < r.total_time_s := by
  intro r hr
  exact accumulating_segments_positive_duration.1 utcTz _ [] 0 r hr
    (by
      have : computeDayRows utcTz
          [ { ts := 10, status := Status.S }, { ts := 20, status := Status.S } ]
          [] 0 =
          [ { day := 0, day_start_utc_s := 0, status := Status.S,
              start_ts_utc_s := 10, end_ts_utc_s := 20, total_time_s := 10 } ] := by
        decide
      rw [this] at hr
      simp at hr
      rw [hr]
      decide)

/-- A `filterMap` over a list on which the function is constantly `none`
produces nothing. -/
theorem filterMapNoneOfAll {α β : Type} (f : α → Option β) :
    ∀ (l : List α), (∀ r ∈ l, f r = none) → l.filterMap f = []
  | [], _ => rfl
  | a :: l, h => by
    rw [List.filterMap_cons, h a (by simp)]
    exact filterMapNoneOfAll f l fun r hr => h r (by simp [hr])

/-- `segAvg` of a field that is null on every row of the slice is null. -/
theorem segAvg_none {seg : List SampleRow} {st : Status}
    {f : SampleRow → Option ℚ} (h : ∀ r ∈ seg, f r = none) :
    segAvg seg st f = none := by
  unfold segAvg
  rw [filterMapNoneOfAll _ seg fun r hr => ?_]
  split
  · exact h r hr
  · rfl

/-- Claim C9: null operands are excluded, never read as zero — (i) a
DaySegment built from rows whose temperature fields are all null gets null
averaged temperatures; (ii) in the high-power branch the Mode Classifier
holds the previous mode when either endpoint temperature is unknown,
instead of comparing with a substituted value; (iii) an unknown ambient
temperature yields Cooling, not the Defrost that a zero ambient would
yield. -/
theorem null_operands_excluded :
    (∀ (d ds : ℤ) (rows : List SampleRow) (iS iE : ℕ),
        (∀ r ∈ rows, r.hm_temp_IN = none ∧ r.hm_temp_OUT = none
          ∧ r.hm_temp_diff = none) →
        ∀ seg ∈ storeDaySegment d ds rows iS iE,
          seg.hp_temp_in = none ∧ seg.hp_temp_out = none
            ∧ seg.hp_temp_diff = none)
    ∧ (∀ (d : Snapshot) (prev : Option Status),
        (d.hm_temp_IN = none ∨ d.hm_temp_OUT = none) →
        orFalsy d.em_activepower 0 > HPWORK →
        orFalsy (orFalsyOpt d.hm_activeflow_m3h d.hm_flow_m3h) 0 > 0 →
        computeLogicalStatus d prev = prev.getD Status.S)
    ∧ (∀ (d : Snapshot) (prev : Option Status) (tIn tOut : ℚ),
        d.hm_temp_IN = some tIn → d.hm_temp_OUT = some tOut →
        d.ts_ambient_temp = none →
        orFalsy d.em_activepower 0 > HPWORK →
        orFalsy (orFalsyOpt d.hm_activeflow_m3h d.hm_flow_m3h) 0 > 0 →
        ¬ (tIn > tOut + HPDT) → tIn + HPDT < tOut →
        computeLogicalStatus d prev = Status.C) := by
  refine ⟨?_, ?_, ?_⟩
  · intro d ds rows iS iE h seg hseg
    rw [Option.mem_def] at hseg
    unfold storeDaySegment at hseg
    split at hseg
    · exact absurd hseg (by simp)
    · split at hseg
      · split at hseg
        · exact absurd hseg (by simp)
        · split at hseg
          · exact absurd hseg (by simp)
          · obtain rfl : _ = seg := Option.some_injective _ hseg
            have hsub : ∀ r ∈ (rows.drop iS).take (iE - iS + 1), r ∈ rows :=
              fun r hr => List.mem_of_mem_drop (List.mem_of_mem_take hr)
            refine ⟨?_, ?_, ?_⟩ <;>
              · dsimp only
                exact segAvg_none fun r hr => by
                  first
                    | exact (h r (hsub r hr)).1
                    | exact (h r (hsub r hr)).2.1
                    | exact (h r (hsub r hr)).2.2
      · exact absurd hseg (by simp)
  · intro d prev hT hp hf
    unfold computeLogicalStatus
    rw [if_pos ⟨hp, hf⟩]
    rcases hI : d.hm_temp_IN with _ | tIn <;> rcases hO : d.hm_temp_OUT with _ | tOut
    · rfl
    · rfl
    · rfl
    · rcases hT with h | h
      · rw [hI] at h; exact absurd h (by simp)
      · rw [hO] at h; exact absurd h (by simp)
  · intro d prev tIn tOut hI hO hAmb hp hf hne hlt
    unfold computeLogicalStatus
    rw [if_pos ⟨hp, hf⟩, hI, hO]
    dsimp only
    rw [if_neg hne, if_pos hlt, hAmb]

/-- Witness for C9 at concrete inputs: a two-row Standby run whose
temperature fields are never populated yields null averaged temperatures;
a 400 W / 0.5 m³/h snapshot with unknown endpoint temperatures holds the
previous mode (Heating); and the Defrost reference snapshot with ambient
removed classifies as Cooling. -/
theorem null_operands_excluded_witness :
    (∀ seg ∈ storeDaySegment 0 0
        [ { ts := 10, status := Status.S }, { ts := 20, status := Status.S } ] 0 1,
        seg.hp_temp_in = none ∧ seg.hp_temp_out = none ∧ seg.hp_temp_diff = none)
    ∧ computeLogicalStatus
        { em_activepower := some 400, hm_activeflow_m3h := some (1/2) }
        (some Status.H) = Status.H
    ∧ computeLogicalStatus
        { em_activepower := some 400, hm_activeflow_m3h := some (1/2),
          hm_temp_IN := some 35, hm_temp_OUT := some 45 }
        (some Status.S) = Status.C := by
  refine ⟨?_, ?_, ?_⟩
  · exact null_operands_excluded.1 0 0 _ 0 1 (by decide)
  · exact null_operands_excluded.2.1 _ (some Status.H) (Or.inl rfl)
      (by norm_num [orFalsy, HPWORK]) (by norm_num [orFalsy, orFalsyOpt])
  · exact null_operands_excluded.2.2 _ (some Status.S) 35 45 rfl rfl rfl
      (by norm_num [orFalsy, HPWORK]) (by norm_num [orFalsy, orFalsyOpt])
      (by norm_num [HPDT]) (by norm_num [HPDT])

/-- Every row inserted by `computeDayRows` for day `d` carries day `d`. -/
theorem computeDayRows_day {tz : Tz} {samples : List SampleRow}
    {offMap : List (ℤ × ℤ × ℤ)} {d : ℤ} :
    ∀ r ∈ computeDayRows tz samples offMap d, r.day = d := by
  intro r h
  rcases computeDayRows_cases h with ⟨s, rfl⟩ | ⟨iS, iE, hs⟩ | ⟨a, b, ho⟩
  · rfl
  · exact (storeDaySegment_eq_some hs).1
  · exact (offRow_eq_some ho).1

/-- Upserting rows that all belong to day `d` never disturbs the rows of
other days. -/
theorem foldl_upsert_filter (d : ℤ) :
    ∀ (R t : List DayRow), (∀ r ∈ R, r.day = d) →
      ((R.foldl upsertDay t).filter fun x => ¬ (x.day = d))
        = t.filter fun x => ¬ (x.day = d) := by
  intro R
  induction R with
  | nil => intro t _; rfl
  | cons r R ih =>
    intro t h
    rw [List.foldl_cons, ih _ fun x hx => h x (List.mem_cons_of_mem _ hx)]
    have hr : r.day = d := h r (List.mem_cons_self _ _)
    unfold upsertDay
    rw [List.filter_append]
    have h1 : ([r].filter fun x => ¬ (x.day = d)) = [] := by simp [hr]
    rw [h1, List.append_nil, List.filter_filter]
    apply List.filter_congr
    intro a _
    by_cases had : a.day = d
    · simp [had]
    · simp [dayKeyEq, had, hr]

/-- Claim C8: running the Day Segmentation Algorithm twice for the same
local day on an unchanged Sample table and unchanged pre-computed OFF
intervals yields an identical `day_summary` table — the rebuild deletes all
of the day's rows and deterministically reinserts them. -/
theorem day_rebuild_idempotent (tz : Tz) (dayTable : List DayRow)
    (samples : List SampleRow) (offMap : List (ℤ × ℤ × ℤ)) (d : ℤ) :
    buildDaySummary tz (buildDaySummary tz dayTable samples offMap d)
        samples offMap d
      = buildDaySummary tz dayTable samples offMap d := by
  unfold buildDaySummary
  congr 1
  rw [foldl_upsert_filter d _ _ computeDayRows_day, List.filter_filter]
  apply List.filter_congr
  intro a _
  exact Bool.and_self _

/-- The persistent state of `DBWriterSQLite` that survives across ticks:
`first_saved`, `last_logical_status`, `last_status_stored`,
`last_save_time`, `current_day_local`, `last_read_data`,
`last_read_ts_utc_s` and the per-day offline OFF segments. -/
structure WriterState where
  firstSaved : Bool
  lastLogicalStatus : Option Status
  lastStatusStored : Option Status
  lastSaveTime : ℚ
  currentDayLocal : ℤ
  lastReadData : Option Snapshot
  lastReadTs : Option ℤ
  offlineSegments : List (ℤ × ℤ × ℤ)
deriving DecidableEq

/-- `status_changed = prev_status_stored is not None and status_to_store !=
prev_status_stored`. -/
def statusChangedB (prev : Option Status) (statusToStore : Status) : Bool :=
  match prev with
  | none => false
  | some p => decide (statusToStore ≠ p)

/-- The write decision of `DBWriterSQLite.run`: always write before the
first-ever sample; otherwise write on a status-change edge, or once the
dwell since the last write reaches `YSEC` (300 s) for Standby or `ZSEC`
(10 s) for any other status to store. -/
def shouldWriteDecision (firstSaved statusChanged : Bool)
    (statusToStore : Status) (elapsed : ℚ) : Bool :=
  if firstSaved = false then true
  else if statusChanged then true
  else decide (elapsed ≥ (if statusToStore = Status.S then YSEC else ZSEC))

/-- The status the engine will store this tick: the classifier output, or
`"ON"` forced before the first-ever write. -/
def tickStatusToStore (s : WriterState) (dataNow : Snapshot) : Status :=
  if s.firstSaved then computeLogicalStatus dataNow s.lastLogicalStatus
  else Status.ON

/-- This tick's `status_changed` flag. -/
def tickChanged (s : WriterState) (dataNow : Snapshot) : Bool :=
  statusChangedB s.lastStatusStored (tickStatusToStore s dataNow)

/-- This tick's write decision. -/
def tickShouldWrite (s : WriterState) (dataNow : Snapshot) (nowT : ℚ) : Bool :=
  shouldWriteDecision s.firstSaved (tickChanged s dataNow)
    (tickStatusToStore s dataNow) (nowT - s.lastSaveTime)

/-- The bridging rule of `DBWriterSQLite.run`: on a write that is a
status-change transition away from Standby, with more than one tick
interval elapsed since the last write and a last-read snapshot available,
first insert a synthetic Standby sample carrying the previous read at the
previous read's timestamp. -/
def bridgeInserts (s : WriterState) (dataNow : Snapshot) (nowT : ℚ) :
    List SampleRow :=
  if s.firstSaved = true ∧ tickChanged s dataNow = true
      ∧ s.lastStatusStored = some Status.S
      ∧ tickStatusToStore s dataNow ≠ Status.S then
    if nowT - s.lastSaveTime > XSEC then
      match s.lastReadData, s.lastReadTs with
      | some ld, some lt => [insertSampleRow ld Status.S lt]
      | _, _ => []
    else []
  else []

/-- Offline gap detected on the first-ever write: the timestamp of the last
non-boundary sample in the table, when it is before `tsNow`. -/
def tickPendingOffline (s : WriterState) (db : List SampleRow) (tsNow : ℤ) :
    Option (ℤ × ℤ) :=
  if s.firstSaved then none
  else
    match lastNonBoundaryTs db with
    | some t0 => if t0 < tsNow then some (t0, tsNow) else none
    | none => none

/-- The observable outcome of one tick of `DBWriterSQLite.run`: the new
persistent state, the `hp_samples` rows inserted (in insertion order), and
the local days passed to `build_day_summary_for_date` +
`update_month_year_total_for_day` (in call order). -/
structure TickOut where
  state : WriterState
  inserts : List SampleRow
  rebuilds : List ℤ
deriving DecidableEq

/-- One iteration of the main loop of `DBWriterSQLite.run`: skip on an
empty store; finalize the previous day on rollover; classify; force `"ON"`
and look for an offline gap before the first-ever write; decide whether to
write; bridge; insert; backfill the offline gap per local day on the first
write; update state; rebuild today on a status change. -/
def tick (tz : Tz) (db : List SampleRow) (s : WriterState)
    (dataOpt : Option Snapshot) (tsNow : ℤ) (nowT : ℚ) : TickOut :=
  match dataOpt with
  | none => ⟨s, [], []⟩
  | some dataNow =>
    let today := tz.dayOf tsNow
    let rollRebuilds := if today = s.currentDayLocal then [] else [s.currentDayLocal]
    let logical := computeLogicalStatus dataNow s.lastLogicalStatus
    let statusToStore := tickStatusToStore s dataNow
    let pending := tickPendingOffline s db tsNow
    if tickShouldWrite s dataNow nowT = false then
      let sSkip := { s with
        currentDayLocal := today
        lastLogicalStatus := some logical
        lastReadData := some dataNow
        lastReadTs := some tsNow }
      ⟨sSkip, [], rollRebuilds⟩
    else
      let offSegs :=
        match pending with
        | some (a, b) => computeOfflineSegments tz a b
        | none => []
      ⟨{ firstSaved := true
         lastLogicalStatus := some logical
         lastStatusStored := some statusToStore
         lastSaveTime := nowT
         currentDayLocal := today
         lastReadData := some dataNow
         lastReadTs := some tsNow
         offlineSegments := if pending.isSome then offSegs else s.offlineSegments },
        bridgeInserts s dataNow nowT ++ [insertSampleRow dataNow statusToStore tsNow],
        rollRebuilds ++ offSegs.map (fun p => p.1)
          ++ (if tickChanged s dataNow then [today] else [])⟩

/-- Engine state for the write-gating scenario: a non-first run whose last
stored status is Standby, last written at wall time 0. -/
def c4state : WriterState :=
  { firstSaved := true, lastLogicalStatus := some Status.S,
    lastStatusStored := some Status.S, lastSaveTime := 0,
    currentDayLocal := 0, lastReadData := none, lastReadTs := none,
    offlineSegments := [] }

/-- A 50 W / no-flow snapshot, classified Standby. -/
def c4snap : Snapshot := { em_activepower := some 50 }

/-- Claim C4: the engine always writes the first-ever sample; otherwise it
writes exactly when the status to store differs from the last stored
status or the elapsed wall time since the last write has reached the
status-dependent dwell (300 s for Standby, 10 s otherwise). In particular,
with stored status unchanged and equal to Standby, ticks at wall times 40 s
and 290 s (250 s apart) after a write at time 0 produce no new Sample row,
and a tick at 305 s — past the 300 s dwell — produces exactly one new
row. -/
theorem write_decision :
    (∀ (chg : Bool) (st : Status) (e : ℚ), shouldWriteDecision false chg st e = true)
    ∧ (∀ (fs : Bool) (p st : Status) (e : ℚ),
        shouldWriteDecision fs (statusChangedB (some p) st) st e = true
          ↔ (fs = false ∨ st ≠ p ∨ (if st = Status.S then YSEC else ZSEC) ≤ e))
    ∧ (tick utcTz [] c4state (some c4snap) 40 40).inserts = []
    ∧ (tick utcTz [] (tick utcTz [] c4state (some c4snap) 40 40).state
        (some c4snap) 290 290).inserts = []
    ∧ (tick utcTz []
        (tick utcTz [] (tick utcTz [] c4state (some c4snap) 40 40).state
          (some c4snap) 290 290).state
        (some c4snap) 305 305).inserts
      = [insertSampleRow c4snap Status.S 305] := by
  refine ⟨?_, ?_, ?_, ?_, ?_⟩
  · intro chg st e
    simp [shouldWriteDecision]
  · intro fs p st e
    unfold shouldWriteDecision statusChangedB
    by_cases hfs : fs = false
    · simp [hfs]
    · by_cases hsp : st = p
      · simp [hfs, hsp, ge_iff_le]
      · simp [hfs, hsp]
  · norm_num [tick, tickShouldWrite, shouldWriteDecision, tickChanged,
      tickStatusToStore, statusChangedB, computeLogicalStatus, orFalsy,
      orFalsyOpt, HPWORK, HPWORKMIN, HPFLOW, YSEC, ZSEC, c4state, c4snap, utcTz]
  · norm_num [tick, tickShouldWrite, shouldWriteDecision, tickChanged,
      tickStatusToStore, statusChangedB, computeLogicalStatus, orFalsy,
      orFalsyOpt, HPWORK, HPWORKMIN, HPFLOW, YSEC, ZSEC, c4state, c4snap, utcTz]
  · norm_num [tick, tickShouldWrite, shouldWriteDecision, tickChanged,
      tickStatusToStore, statusChangedB, computeLogicalStatus, orFalsy,
      orFalsyOpt, HPWORK, HPWORKMIN, HPFLOW, YSEC, ZSEC, c4state, c4snap,
      utcTz, bridgeInserts, tickPendingOffline, insertSampleRow, round2opt]

/-- On a writing tick the inserted rows are the bridge rows followed by the
main sample. -/
theorem tick_inserts_write {tz : Tz} {db : List SampleRow} {s : WriterState}
    {d : Snapshot} {tsNow : ℤ} {nowT : ℚ}
    (h : tickShouldWrite s d nowT = true) :
    (tick tz db s (some d) tsNow nowT).inserts
      = bridgeInserts s d nowT
        ++ [insertSampleRow d (tickStatusToStore s d) tsNow] := by
  unfold tick
  dsimp only
  rw [h]
  simp

/-- On a skipped tick nothing is inserted. -/
theorem tick_inserts_skip {tz : Tz} {db : List SampleRow} {s : WriterState}
    {d : Snapshot} {tsNow : ℤ} {nowT : ℚ}
    (h : tickShouldWrite s d nowT = false) :
    (tick tz db s (some d) tsNow nowT).inserts = [] := by
  unfold tick
  dsimp only
  rw [h]
  simp

/-- When any leg of the bridging condition fails, no synthetic sample is
produced. -/
theorem bridgeInserts_nil {s : WriterState} {d : Snapshot} {nowT : ℚ}
    (h : s.firstSaved = false ∨ s.lastStatusStored ≠ some Status.S
      ∨ tickStatusToStore s d = Status.S
      ∨ ¬ (nowT - s.lastSaveTime > XSEC)
      ∨ s.lastReadData = none ∨ s.lastReadTs = none) :
    bridgeInserts s d nowT = [] := by
  unfold bridgeInserts
  rcases h with h | h | h | h | h | h
  · rw [if_neg]
    rintro ⟨h1, -, -, -⟩
    rw [h] at h1
    exact absurd h1 (by simp)
  · rw [if_neg]
    rintro ⟨-, -, h3, -⟩
    exact h h3
  · rw [if_neg]
    rintro ⟨-, -, -, h4⟩
    exact h4 h
  · by_cases hc : s.firstSaved = true ∧ tickChanged s d = true
      ∧ s.lastStatusStored = some Status.S ∧ tickStatusToStore s d ≠ Status.S
    · rw [if_pos hc, if_neg h]
    · rw [if_neg hc]
  · by_cases hc : s.firstSaved = true ∧ tickChanged s d = true
      ∧ s.lastStatusStored = some Status.S ∧ tickStatusToStore s d ≠ Status.S
    · rw [if_pos hc]
      by_cases he : nowT - s.lastSaveTime > XSEC
      · rw [if_pos he, h]
      · rw [if_neg he]
    · rw [if_neg hc]
  · by_cases hc : s.firstSaved = true ∧ tickChanged s d = true
      ∧ s.lastStatusStored = some Status.S ∧ tickStatusToStore s d ≠ Status.S
    · rw [if_pos hc]
      by_cases he : nowT - s.lastSaveTime > XSEC
      · rw [if_pos he, h]
        cases s.lastReadData <;> rfl
      · rw [if_neg he]
    · rw [if_neg hc]

/-- Claim C5: on a non-first write that is a status-change transition from
stored Standby to a non-Standby status, with more than one tick interval
(5 s) elapsed since the last write and a last-read snapshot present, the
engine first inserts a synthetic Standby sample carrying the previous
read at the previous read's timestamp; in every other write situation the
tick inserts only the main sample, and a skipped tick inserts nothing. -/
theorem bridge_rule (tz : Tz) (db : List SampleRow) (s : WriterState)
    (d : Snapshot) (tsNow : ℤ) (nowT : ℚ) :
    ((tick tz db s (some d) tsNow nowT).inserts.length ≤ 2)
    ∧ (∀ (ld : Snapshot) (lt : ℤ),
        tickShouldWrite s d nowT = true → s.firstSaved = true →
        s.lastStatusStored = some Status.S →
        tickStatusToStore s d ≠ Status.S →
        nowT - s.lastSaveTime > XSEC →
        s.lastReadData = some ld → s.lastReadTs = some lt →
        (tick tz db s (some d) tsNow nowT).inserts
          = [insertSampleRow ld Status.S lt,
             insertSampleRow d (tickStatusToStore s d) tsNow])
    ∧ (tickShouldWrite s d nowT = true →
        (s.firstSaved = false ∨ s.lastStatusStored ≠ some Status.S
          ∨ tickStatusToStore s d = Status.S
          ∨ ¬ (nowT - s.lastSaveTime > XSEC)
          ∨ s.lastReadData = none ∨ s.lastReadTs = none) →
        (tick tz db s (some d) tsNow nowT).inserts
          = [insertSampleRow d (tickStatusToStore s d) tsNow])
    ∧ (tickShouldWrite s d nowT = false →
        (tick tz db s (some d) tsNow nowT).inserts = []) := by
  refine ⟨?_, ?_, ?_, ?_⟩
  · rcases hsw : tickShouldWrite s d nowT with _ | _
    · rw [tick_inserts_skip hsw]
      simp
    · rw [tick_inserts_write hsw]
      have hb : (bridgeInserts s d nowT).length ≤ 1 := by
        unfold bridgeInserts
        split
        · split
          · rcases s.lastReadData with _ | ld
            · simp
            · rcases s.lastReadTs with _ | lt <;> simp
          · simp
        · simp
      simp only [List.length_append, List.length_singleton]
      omega
  · intro ld lt hsw hfs hprev hstne helapsed hld hlt
    rw [tick_inserts_write hsw]
    have hchg : tickChanged s d = true := by
      unfold tickChanged statusChangedB
      rw [hprev]
      simpa using hstne
    unfold bridgeInserts
    rw [if_pos ⟨hfs, hchg, hprev, hstne⟩, if_pos helapsed, hld, hlt]
    rfl
  · intro hsw h
    rw [tick_inserts_write hsw, bridgeInserts_nil h]
    rfl
  · intro hsw
    exact tick_inserts_skip hsw

/-- Engine state for the bridging witness: stored status Standby, last
write at wall time 0, last read (a 50 W Standby snapshot) at 95 s. -/
def c5state : WriterState :=
  { firstSaved := true, lastLogicalStatus := some Status.S,
    lastStatusStored := some Status.S, lastSaveTime := 0,
    currentDayLocal := 0,
    lastReadData := some { em_activepower := some 50 },
    lastReadTs := some 95, offlineSegments := [] }

/-- A 400 W / 0.5 m³/h snapshot with inlet 45 °C, outlet 35 °C — classified
Heating. -/
def c5snap : Snapshot :=
  { em_activepower := some 400, hm_activeflow_m3h := some (1/2),
    hm_temp_IN := some 45, hm_temp_OUT := some 35 }

/-- Witness for C5 at a concrete input: at a Standby→Heating transition
100 s after the last write, the tick inserts the synthetic Standby sample
at the previous read's timestamp 95 s, then the Heating sample. -/
theorem bridge_rule_witness :
    (tick utcTz [] c5state (some c5snap) 100 100).inserts
      = [insertSampleRow { em_activepower := some 50 } Status.S 95,
         insertSampleRow c5snap Status.H 100] := by
  have hst : tickStatusToStore c5state c5snap = Status.H := by
    norm_num [tickStatusToStore, c5state, c5snap, computeLogicalStatus,
      orFalsy, orFalsyOpt, HPWORK, HPDT]
  have h := (bridge_rule utcTz [] c5state c5snap 100 100).2.1
    { em_activepower := some 50 } 95
    (by
      norm_num [tickShouldWrite, shouldWriteDecision, tickChanged,
        statusChangedB, tickStatusToStore, c5state, c5snap,
        computeLogicalStatus, orFalsy, orFalsyOpt, HPWORK, HPDT, YSEC, ZSEC]
      exact Or.inl (by decide))
    rfl rfl
    (by rw [hst]; decide)
    (by norm_num [c5state, XSEC])
    rfl rfl
  rw [hst] at h
  exact h

/-- Local midnights of a valid timezone are monotone. -/
theorem Tz.Valid.midnight_mono {tz : Tz} (hV : tz.Valid) {d : ℤ} :
    ∀ e, d ≤ e → tz.midnight d ≤ tz.midnight e := by
  refine Int.le_induction le_rfl ?_
  intro n _ ih
  exact ih.trans (hV.mono n).le

/-- Every instant lies between its local day's midnight and the next. -/
theorem Tz.Valid.dayOf_bounds {tz : Tz} (hV : tz.Valid) (t : ℤ) :
    tz.midnight (tz.dayOf t) ≤ t ∧ t < tz.midnight (tz.dayOf t + 1) :=
  (hV.day_spec t _).mp rfl

/-- The local day of an instant is monotone in the instant. -/
theorem Tz.Valid.dayOf_mono {tz : Tz} (hV : tz.Valid) {a b : ℤ} (hab : a ≤ b) :
    tz.dayOf a ≤ tz.dayOf b := by
  by_contra hcon
  push_neg at hcon
  have h1 := (hV.dayOf_bounds a).1
  have h2 := (hV.dayOf_bounds b).2
  have h3 : tz.midnight (tz.dayOf b + 1) ≤ tz.midnight (tz.dayOf a) :=
    hV.midnight_mono _ (by omega)
  omega

/-- Each interval produced by `compute_offline_segments` is nondegenerate,
contained in the gap, and contained in its own local day. -/
theorem offlineSegments_bounds {tz : Tz} (hV : tz.Valid) {s e : ℤ}
    (hse : s < e) :
    ∀ p ∈ computeOfflineSegments tz s e,
      p.2.1 < p.2.2 ∧ s ≤ p.2.1 ∧ p.2.2 ≤ e
        ∧ tz.midnight p.1 ≤ p.2.1 ∧ p.2.2 ≤ tz.midnight (p.1 + 1) := by
  intro p hp
  unfold computeOfflineSegments at hp
  rw [if_neg (by omega)] at hp
  obtain ⟨k, hk, heq⟩ := List.mem_filterMap.mp hp
  rw [List.mem_range] at hk
  dsimp only at heq
  by_cases hcond :
      (if tz.dayOf s + (k : ℤ) = tz.dayOf s then s
          else tz.midnight (tz.dayOf s + (k : ℤ)))
        < (if tz.dayOf s + (k : ℤ) = tz.dayOf e then e
            else tz.midnight (tz.dayOf s + (k : ℤ) + 1))
  case neg =>
    rw [if_neg hcond] at heq
    exact absurd heq (by simp)
  case pos =>
    rw [if_pos hcond] at heq
    obtain rfl : _ = p := Option.some_injective _ heq
    have hkz : (k : ℤ) ≤ tz.dayOf e - tz.dayOf s := by omega
    have hsb := hV.dayOf_bounds s
    have heb := hV.dayOf_bounds e
    refine ⟨hcond, ?_, ?_, ?_, ?_⟩
    · dsimp only
      split
      · exact le_rfl
      · rename_i hne
        have h1 : tz.dayOf s + 1 ≤ tz.dayOf s + (k : ℤ) := by omega
        have h2 := hV.midnight_mono (d := tz.dayOf s + 1) _ h1
        omega
    · dsimp only
      split
      · exact le_rfl
      · rename_i hne
        have h1 : tz.dayOf s + (k : ℤ) + 1 ≤ tz.dayOf e := by omega
        have h2 := hV.midnight_mono (d := tz.dayOf s + (k : ℤ) + 1) _ h1
        omega
    · dsimp only
      split
      · rename_i hd0
        rw [hd0]
        exact hsb.1
      · exact le_rfl
    · dsimp only
      split
      · rename_i hd1
        rw [hd1]
        exact heb.2.le
      · exact le_rfl

/-- Every instant of the gap is covered by the produced interval of its own
local day. -/
theorem offlineSegments_cover {tz : Tz} (hV : tz.Valid) {s e : ℤ} :
    ∀ t, s ≤ t → t < e →
      ∃ p ∈ computeOfflineSegments tz s e,
        p.1 = tz.dayOf t ∧ p.2.1 ≤ t ∧ t < p.2.2 := by
  intro t hst hte
  have hse : s < e := by omega
  have hd0t : tz.dayOf s ≤ tz.dayOf t := hV.dayOf_mono hst
  have htd1 : tz.dayOf t ≤ tz.dayOf e := hV.dayOf_mono (by omega)
  have hsb := hV.dayOf_bounds s
  have heb := hV.dayOf_bounds e
  have htb := hV.dayOf_bounds t
  refine ⟨(tz.dayOf t,
      (if tz.dayOf t = tz.dayOf s then s else tz.midnight (tz.dayOf t)),
      (if tz.dayOf t = tz.dayOf e then e else tz.midnight (tz.dayOf t + 1))),
    ?_, rfl, ?_, ?_⟩
  · unfold computeOfflineSegments
    rw [if_neg (by omega)]
    apply List.mem_filterMap.mpr
    refine ⟨(tz.dayOf t - tz.dayOf s).toNat, List.mem_range.mpr (by omega), ?_⟩
    dsimp only
    have hcast : tz.dayOf s + ((tz.dayOf t - tz.dayOf s).toNat : ℤ) = tz.dayOf t := by
      omega
    rw [hcast]
    rw [if_pos ?hlt]
    case hlt =>
      have h1 : (if tz.dayOf t = tz.dayOf s then s else tz.midnight (tz.dayOf t)) ≤ t := by
        split
        · exact hst
        · exact htb.1
      have h2 : t < (if tz.dayOf t = tz.dayOf e then e else tz.midnight (tz.dayOf t + 1)) := by
        split
        · exact hte
        · exact htb.2
      omega
  · dsimp only
    split
    · exact hst
    · exact htb.1
  · dsimp only
    split
    · exact hte
    · exact htb.2

/-- Claim C6: on the first-ever write of a run (engine state fresh: nothing
saved, no stored status, no day rollover pending) with the Sample table
containing a last non-boundary sample at `t0 < tsNow`, the tick stores a
sample forced to status `ON`; the gap `[t0, tsNow)` is split into per-local-
day OFF intervals at local midnight boundaries (each produced interval is
nondegenerate, inside the gap and inside its own local day, and every
instant of the gap is covered by the interval of its local day); and
DaySegments plus Month/Year/Total roll-ups are rebuilt exactly for the days
of those intervals — hence for every local day touched by the gap. -/
theorem first_write_backfill (tz : Tz) (db : List SampleRow)
    (s : WriterState) (d : Snapshot) (t0 tsNow : ℤ) (nowT : ℚ)
    (hV : tz.Valid)
    (hfs : s.firstSaved = false)
    (hprev : s.lastStatusStored = none)
    (hday : tz.dayOf tsNow = s.currentDayLocal)
    (hlast : lastNonBoundaryTs db = some t0)
    (ht0 : t0 < tsNow) :
    (tick tz db s (some d) tsNow nowT).inserts
        = [insertSampleRow d Status.ON tsNow]
    ∧ (tick tz db s (some d) tsNow nowT).state.firstSaved = true
    ∧ (tick tz db s (some d) tsNow nowT).state.offlineSegments
        = computeOfflineSegments tz t0 tsNow
    ∧ (tick tz db s (some d) tsNow nowT).rebuilds
        = (computeOfflineSegments tz t0 tsNow).map (fun p => p.1)
    ∧ (∀ p ∈ computeOfflineSegments tz t0 tsNow,
        p.2.1 < p.2.2 ∧ t0 ≤ p.2.1 ∧ p.2.2 ≤ tsNow
          ∧ tz.midnight p.1 ≤ p.2.1 ∧ p.2.2 ≤ tz.midnight (p.1 + 1))
    ∧ (∀ t, t0 ≤ t → t < tsNow →
        (∃ p ∈ computeOfflineSegments tz t0 tsNow,
          p.1 = tz.dayOf t ∧ p.2.1 ≤ t ∧ t < p.2.2)
        ∧ tz.dayOf t ∈ (tick tz db s (some d) tsNow nowT).rebuilds) := by
  have hts : tickStatusToStore s d = Status.ON := by
    unfold tickStatusToStore
    rw [hfs]
    rfl
  have hchg : tickChanged s d = false := by
    unfold tickChanged statusChangedB
    rw [hprev]
  have hsw : tickShouldWrite s d nowT = true := by
    unfold tickShouldWrite shouldWriteDecision
    rw [hfs]
    rfl
  have hpend : tickPendingOffline s db tsNow = some (t0, tsNow) := by
    unfold tickPendingOffline
    rw [hfs, hlast]
    simp [ht0]
  have hout : tick tz db s (some d) tsNow nowT =
      ⟨{ firstSaved := true
         lastLogicalStatus := some (computeLogicalStatus d s.lastLogicalStatus)
         lastStatusStored := some Status.ON
         lastSaveTime := nowT
         currentDayLocal := tz.dayOf tsNow
         lastReadData := some d
         lastReadTs := some tsNow
         offlineSegments := computeOfflineSegments tz t0 tsNow },
        [insertSampleRow d Status.ON tsNow],
        (computeOfflineSegments tz t0 tsNow).map (fun p => p.1)⟩ := by
    unfold tick
    dsimp only
    rw [hsw, if_neg (by simp), hts, hchg, hpend, hday, if_pos rfl]
    have hb : bridgeInserts s d nowT = [] := bridgeInserts_nil (Or.inl hfs)
    rw [hb]
    simp
  refine ⟨by rw [hout], by rw [hout], by rw [hout], by rw [hout],
    offlineSegments_bounds hV ht0, ?_⟩
  intro t ht0t htn
  obtain ⟨p, hp, hpd, hpl, hpr⟩ := offlineSegments_cover hV t ht0t htn
  refine ⟨⟨p, hp, hpd, hpl, hpr⟩, ?_⟩
  rw [hout]
  dsimp only
  rw [← hpd]
  exact List.mem_map.mpr ⟨p, hp, rfl⟩

/-- Fresh engine state at process start (nothing saved yet), believing the
local day is day 1 of `utcTz`. -/
def c6state : WriterState :=
  { firstSaved := false, lastLogicalStatus := none, lastStatusStored := none,
    lastSaveTime := 0, currentDayLocal := 1, lastReadData := none,
    lastReadTs := none, offlineSegments := [] }

/-- A 50 W snapshot seen on the first tick after process start. -/
def c6snap : Snapshot := { em_activepower := some 50 }

/-- Witness for C6 at a concrete input: with one old Standby sample at
10 s (local day 0) and the first tick at 90000 s (local day 1), the engine
writes an `ON` sample and rebuilds both local days touched by the gap
`[10, 90000)`, which is split at the local midnight 86400 s. -/
theorem first_write_backfill_witness :
    (tick utcTz [{ ts := 10, status := Status.S }] c6state (some c6snap)
        90000 0).inserts = [insertSampleRow c6snap Status.ON 90000]
    ∧ (tick utcTz [{ ts := 10, status := Status.S }] c6state (some c6snap)
        90000 0).state.offlineSegments = computeOfflineSegments utcTz 10 90000
    ∧ (tick utcTz [{ ts := 10, status := Status.S }] c6state (some c6snap)
        90000 0).rebuilds
      = (computeOfflineSegments utcTz 10 90000).map (fun p => p.1)
    ∧ ∀ t, (10 : ℤ) ≤ t → t < 90000 →
        utcTz.dayOf t ∈ (tick utcTz [{ ts := 10, status := Status.S }] c6state
          (some c6snap) 90000 0).rebuilds := by
  have h := first_write_backfill utcTz [{ ts := 10, status := Status.S }]
    c6state c6snap 10 90000 0 utcTz_valid rfl rfl (by decide) (by decide)
    (by decide)
  exact ⟨h.1, h.2.2.1, h.2.2.2.1, fun t h1 h2 => (h.2.2.2.2.2 t h1 h2).2⟩

/-- A row of the `month_summary` table (`TABLE_MONTH`), keyed by
`(year, month, day, status)`. -/
structure MonthRow where
  year : ℤ
  month : ℤ
  day : ℤ
  status : Status
  total_time_s : ℤ
  consumption_kw : Option ℚ := none
  positive_kw : Option ℚ := none
  negative_kw : Option ℚ := none
  hp_temp_in : Option ℚ := none
  hp_temp_out : Option ℚ := none
  hp_temp_diff : Option ℚ := none
  hp_activeflow_m3h : Option ℚ := none
  hp_totalflow : Option ℚ := none
  ts_ambient_temp : Option ℚ := none
  ts_ambient_humidity : Option ℚ := none
  times_a_day : ℤ
deriving DecidableEq

/-- A row of the `year_summary` table (`TABLE_YEAR`), keyed by
`(year, month, status)`. -/
structure YearRow where
  year : ℤ
  month : ℤ
  status : Status
  total_time_s : ℤ
  consumption_kw : Option ℚ := none
  positive_kw : Option ℚ := none
  negative_kw : Option ℚ := none
  hp_temp_in : Option ℚ := none
  hp_temp_out : Option ℚ := none
  hp_temp_diff : Option ℚ := none
  hp_activeflow_m3h : Option ℚ := none
  hp_totalflow : Option ℚ := none
  ts_ambient_temp : Option ℚ := none
  ts_ambient_humidity : Option ℚ := none
  times_a_month : ℤ
deriving DecidableEq

/-- A row of the `total_summary` table (`TABLE_TOTAL`), keyed by
`(year, status)`. -/
structure TotalRow where
  year : ℤ
  status : Status
  total_time_s : ℤ
  consumption_kw : Option ℚ := none
  positive_kw : Option ℚ := none
  negative_kw : Option ℚ := none
  hp_temp_in : Option ℚ := none
  hp_temp_out : Option ℚ := none
  hp_temp_diff : Option ℚ := none
  hp_activeflow_m3h : Option ℚ := none
  hp_totalflow : Option ℚ := none
  ts_ambient_temp : Option ℚ := none
  ts_ambient_humidity : Option ℚ := none
  times_a_year : ℤ
deriving DecidableEq

/-- SQL `SUM` over a nullable column: `NULL` when every value of the group
is `NULL`, otherwise the sum of the non-null values. -/
def sqlSum (l : List (Option ℚ)) : Option ℚ :=
  match l.filterMap id with
  | [] => none
  | vs => some vs.sum

/-- The `wavg` helper of `update_month_year_total_for_day`:
`round2(weighted / total_t)` when the weighted sum is non-null and the
total duration positive, else `None`. -/
def wavg (weighted : Option ℚ) (totalT : ℤ) : Option ℚ :=
  match weighted with
  | some w => if 0 < totalT then some (round2 (w / (totalT : ℚ))) else none
  | none => none

/-- All status values, in the fixed order used to model SQL
`GROUP BY status`. -/
def allStatuses : List Status :=
  [Status.S, Status.H, Status.C, Status.D, Status.ON, Status.OFF]

/-- The `month_summary` row aggregated from one day's group `g` of
`day_summary` rows of one status: the `ON` status carries no
duration/energy/averages, only the event count; other statuses carry the
duration sum, energy sums and duration-weighted averages. -/
def monthRowFor (g : List DayRow) (y m dd : ℤ) (st : Status) : MonthRow :=
  if st = Status.ON then
    { year := y, month := m, day := dd, status := st, total_time_s := 0,
      times_a_day := g.length }
  else
    { year := y, month := m, day := dd, status := st
      total_time_s := (g.map fun r => r.total_time_s).sum
      consumption_kw := round2opt (sqlSum (g.map fun r => r.consumption_kw))
      positive_kw := round2opt (sqlSum (g.map fun r => r.positive_kw))
      negative_kw := round2opt (sqlSum (g.map fun r => r.negative_kw))
      hp_temp_in := wavg (sqlSum (g.map fun r =>
          r.hp_temp_in.map (· * (r.total_time_s : ℚ))))
        ((g.map fun r => r.total_time_s).sum)
      hp_temp_out := wavg (sqlSum (g.map fun r =>
          r.hp_temp_out.map (· * (r.total_time_s : ℚ))))
        ((g.map fun r => r.total_time_s).sum)
      hp_temp_diff := wavg (sqlSum (g.map fun r =>
          r.hp_temp_diff.map (· * (r.total_time_s : ℚ))))
        ((g.map fun r => r.total_time_s).sum)
      hp_activeflow_m3h := wavg (sqlSum (g.map fun r =>
          r.hp_activeflow_m3h.map (· * (r.total_time_s : ℚ))))
        ((g.map fun r => r.total_time_s).sum)
      hp_totalflow := round2opt (sqlSum (g.map fun r => r.hp_totalflow))
      ts_ambient_temp := wavg (sqlSum (g.map fun r =>
          r.ts_ambient_temp.map (· * (r.total_time_s : ℚ))))
        ((g.map fun r => r.total_time_s).sum)
      ts_ambient_humidity := wavg (sqlSum (g.map fun r =>
          r.ts_ambient_humidity.map (· * (r.total_time_s : ℚ))))
        ((g.map fun r => r.total_time_s).sum)
      times_a_day := g.length }

/-- The `month_summary` row for one status of the rebuilt day, or `none`
when the day has no `day_summary` rows of that status (SQL `GROUP BY`
yields no group). -/
def monthGroupRow (dayT : List DayRow) (dKey y m dd : ℤ) (st : Status) :
    Option MonthRow :=
  match dayT.filter fun r => r.day = dKey ∧ r.status = st with
  | [] => none
  | g => some (monthRowFor g y m dd st)

/-- The `month_summary` rows inserted for the rebuilt day (the MONTH part
of `update_month_year_total_for_day`). -/
def monthRowsForDay (dayT : List DayRow) (dKey y m dd : ℤ) : List MonthRow :=
  allStatuses.filterMap (monthGroupRow dayT dKey y m dd)

/-- The `year_summary` row aggregated from the group `g` of `month_summary`
rows of one status of the month. -/
def yearRowFor (g : List MonthRow) (y m : ℤ) (st : Status) : YearRow :=
  if st = Status.ON then
    { year := y, month := m, status := st, total_time_s := 0,
      times_a_month := (g.map fun r => r.times_a_day).sum }
  else
    { year := y, month := m, status := st
      total_time_s := (g.map fun r => r.total_time_s).sum
      consumption_kw := round2opt (sqlSum (g.map fun r => r.consumption_kw))
      positive_kw := round2opt (sqlSum (g.map fun r => r.positive_kw))
      negative_kw := round2opt (sqlSum (g.map fun r => r.negative_kw))
      hp_temp_in := wavg (sqlSum (g.map fun r =>
          r.hp_temp_in.map (· * (r.total_time_s : ℚ))))
        ((g.map fun r => r.total_time_s).sum)
      hp_temp_out := wavg (sqlSum (g.map fun r =>
          r.hp_temp_out.map (· * (r.total_time_s : ℚ))))
        ((g.map fun r => r.total_time_s).sum)
      hp_temp_diff := wavg (sqlSum (g.map fun r =>
          r.hp_temp_diff.map (· * (r.total_time_s : ℚ))))
        ((g.map fun r => r.total_time_s).sum)
      hp_activeflow_m3h := wavg (sqlSum (g.map fun r =>
          r.hp_activeflow_m3h.map (· * (r.total_time_s : ℚ))))
        ((g.map fun r => r.total_time_s).sum)
      hp_totalflow := round2opt (sqlSum (g.map fun r => r.hp_totalflow))
      ts_ambient_temp := wavg (sqlSum (g.map fun r =>
          r.ts_ambient_temp.map (· * (r.total_time_s : ℚ))))
        ((g.map fun r => r.total_time_s).sum)
      ts_ambient_humidity := wavg (sqlSum (g.map fun r =>
          r.ts_ambient_humidity.map (· * (r.total_time_s : ℚ))))
        ((g.map fun r => r.total_time_s).sum)
      times_a_month := (g.map fun r => r.times_a_day).sum }

/-- The `year_summary` row for one status of the month, or `none` when the
month has no `month_summary` rows of that status. -/
def yearGroupRow (monthT : List MonthRow) (y m : ℤ) (st : Status) :
    Option YearRow :=
  match monthT.filter fun r => r.year = y ∧ r.month = m ∧ r.status = st with
  | [] => none
  | g => some (yearRowFor g y m st)

/-- The `year_summary` rows inserted for the month (the YEAR part of
`update_month_year_total_for_day`). -/
def yearRowsForMonth (monthT : List MonthRow) (y m : ℤ) : List YearRow :=
  allStatuses.filterMap (yearGroupRow monthT y m)

/-- The `total_summary` row aggregated from the group `g` of
`year_summary` rows of one status of the year. -/
def totalRowFor (g : List YearRow) (y : ℤ) (st : Status) : TotalRow :=
  if st = Status.ON then
    { year := y, status := st, total_time_s := 0,
      times_a_year := (g.map fun r => r.times_a_month).sum }
  else
    { year := y, status := st
      total_time_s := (g.map fun r => r.total_time_s).sum
      consumption_kw := round2opt (sqlSum (g.map fun r => r.consumption_kw))
      positive_kw := round2opt (sqlSum (g.map fun r => r.positive_kw))
      negative_kw := round2opt (sqlSum (g.map fun r => r.negative_kw))
      hp_temp_in := wavg (sqlSum (g.map fun r =>
          r.hp_temp_in.map (· * (r.total_time_s : ℚ))))
        ((g.map fun r => r.total_time_s).sum)
      hp_temp_out := wavg (sqlSum (g.map fun r =>
          r.hp_temp_out.map (· * (r.total_time_s : ℚ))))
        ((g.map fun r => r.total_time_s).sum)
      hp_temp_diff := wavg (sqlSum (g.map fun r =>
          r.hp_temp_diff.map (· * (r.total_time_s : ℚ))))
        ((g.map fun r => r.total_time_s).sum)
      hp_activeflow_m3h := wavg (sqlSum (g.map fun r =>
          r.hp_activeflow_m3h.map (· * (r.total_time_s : ℚ))))
        ((g.map fun r => r.total_time_s).sum)
      hp_totalflow := round2opt (sqlSum (g.map fun r => r.hp_totalflow))
      ts_ambient_temp := wavg (sqlSum (g.map fun r =>
          r.ts_ambient_temp.map (· * (r.total_time_s : ℚ))))
        ((g.map fun r => r.total_time_s).sum)
      ts_ambient_humidity := wavg (sqlSum (g.map fun r =>
          r.ts_ambient_humidity.map (· * (r.total_time_s : ℚ))))
        ((g.map fun r => r.total_time_s).sum)
      times_a_year := (g.map fun r => r.times_a_month).sum }

/-- The `total_summary` row for one status of the year, or `none` when the
year has no `year_summary` rows of that status. -/
def totalGroupRow (yearT : List YearRow) (y : ℤ) (st : Status) :
    Option TotalRow :=
  match yearT.filter fun r => r.year = y ∧ r.status = st with
  | [] => none
  | g => some (totalRowFor g y st)

/-- The `total_summary` rows inserted for the year (the TOTAL part of
`update_month_year_total_for_day`). -/
def totalRowsForYear (yearT : List YearRow) (y : ℤ) : List TotalRow :=
  allStatuses.filterMap (totalGroupRow yearT y)

/-- Effect of the MONTH stage on the `month_summary` table: delete the
day's rows, insert the recomputed per-status rows. -/
def updateMonthTable (monthT : List MonthRow) (dayT : List DayRow)
    (dKey y m dd : ℤ) : List MonthRow :=
  (monthT.filter fun r => ¬ (r.year = y ∧ r.month = m ∧ r.day = dd))
    ++ monthRowsForDay dayT dKey y m dd

/-- Effect of the YEAR stage on the `year_summary` table: delete the
month's rows, insert the recomputed per-status rows from the current
`month_summary`. -/
def updateYearTable (yearT : List YearRow) (monthT : List MonthRow)
    (y m : ℤ) : List YearRow :=
  (yearT.filter fun r => ¬ (r.year = y ∧ r.month = m))
    ++ yearRowsForMonth monthT y m

/-- Effect of the TOTAL stage on the `total_summary` table: delete the
year's rows, insert the recomputed per-status rows from the current
`year_summary`. -/
def updateTotalTable (totalT : List TotalRow) (yearT : List YearRow)
    (y : ℤ) : List TotalRow :=
  (totalT.filter fun r => ¬ (r.year = y)) ++ totalRowsForYear yearT y

/-- `DBWriterSQLite.update_month_year_total_for_day`: the three roll-up
tables after the MONTH, YEAR and TOTAL stages run for local day
`(y, m, dd)` (whose `day_summary` rows are keyed by `dKey`). -/
def updateMYT (dayT : List DayRow) (monthT : List MonthRow)
    (yearT : List YearRow) (totalT : List TotalRow) (dKey y m dd : ℤ) :
    List MonthRow × List YearRow × List TotalRow :=
  (updateMonthTable monthT dayT dKey y m dd,
    updateYearTable yearT (updateMonthTable monthT dayT dKey y m dd) y m,
    updateTotalTable totalT
      (updateYearTable yearT (updateMonthTable monthT dayT dKey y m dd) y m) y)

/-- Total duration recorded in the `month_summary` table for one
`(year, month, status)`, summed over its days. -/
def monthDur (t : List MonthRow) (y m : ℤ) (st : Status) : ℤ :=
  ((t.filter fun r => r.year = y ∧ r.month = m ∧ r.status = st).map
    fun r => r.total_time_s).sum

/-- Total duration recorded in the `year_summary` table for one
`(year, month, status)`. -/
def yearDur (t : List YearRow) (y m : ℤ) (st : Status) : ℤ :=
  ((t.filter fun r => r.year = y ∧ r.month = m ∧ r.status = st).map
    fun r => r.total_time_s).sum

/-- Total duration recorded in the `year_summary` table for one
`(year, status)`, summed over its months. -/
def yearDurAll (t : List YearRow) (y : ℤ) (st : Status) : ℤ :=
  ((t.filter fun r => r.year = y ∧ r.status = st).map
    fun r => r.total_time_s).sum

/-- Total duration recorded in the `total_summary` table for one
`(year, status)`. -/
def totalDur (t : List TotalRow) (y : ℤ) (st : Status) : ℤ :=
  ((t.filter fun r => r.year = y ∧ r.status = st).map
    fun r => r.total_time_s).sum

/-- A `filterMap` that produces something only at one key of a
duplicate-free list yields that key's value alone. -/
theorem filterMap_ite {ρ : Type} (f : Status → Option ρ) (st : Status) :
    ∀ l : List Status, l.Nodup →
      (l.filterMap fun s => if s = st then f s else none)
        = if st ∈ l then (f st).toList else [] := by
  intro l hnd
  induction l with
  | nil => simp
  | cons a l ih =>
    have hnd' := List.nodup_cons.mp hnd
    by_cases hast : a = st
    · subst hast
      have htail : (l.filterMap fun s => if s = a then f s else none) = [] := by
        apply filterMapNoneOfAll
        intro s hs
        rw [if_neg]
        intro hcon
        subst hcon
        exact hnd'.1 hs
      rw [List.filterMap_cons]
      cases hfa : f a <;> simp [hfa, htail]
    · rw [List.filterMap_cons]
      simp only [if_neg hast]
      rw [ih hnd'.2]
      have hmem : (st ∈ a :: l) ↔ st ∈ l := by
        rw [List.mem_cons]
        exact or_iff_right fun hcon => hast hcon.symm
      exact (if_congr hmem rfl rfl).symm

/-- Filtering the rows produced by a per-status generator down to one
status key leaves exactly that status's generated row. -/
theorem filterMap_allStatuses_filter {ρ : Type} (f : Status → Option ρ)
    (q : ρ → Bool) (st : Status)
    (hf : ∀ s r, f s = some r → (q r = true ↔ s = st)) :
    (allStatuses.filterMap f).filter q = (f st).toList := by
  rw [List.filter_filterMap]
  have hkey : ∀ s, (f s).filter q = if s = st then f s else none := by
    intro s
    cases hfs : f s with
    | none => simp [Option.filter]
    | some r =>
      by_cases hsst : s = st
      · simp [Option.filter, (hf s r hfs).mpr hsst, hsst]
      · have hq : q r = false := by
          rcases Bool.eq_false_or_eq_true (q r) with h | h
          · exact absurd ((hf s r hfs).mp h) hsst
          · exact h
        simp [Option.filter, hq, hsst]
  rw [funext hkey, filterMap_ite f st allStatuses (by decide),
    if_pos (by cases st <;> decide)]

/-- `monthGroupRow` as an `if` on the emptiness of the day's group. -/
theorem monthGroupRow_eq (dayT : List DayRow) (dKey y m dd : ℤ) (s : Status) :
    monthGroupRow dayT dKey y m dd s
      = if (dayT.filter fun x => x.day = dKey ∧ x.status = s) = [] then none
        else some (monthRowFor
          (dayT.filter fun x => x.day = dKey ∧ x.status = s) y m dd s) := by
  unfold monthGroupRow
  cases hg : dayT.filter fun x => x.day = dKey ∧ x.status = s with
  | nil => simp
  | cons a t => simp

/-- `yearGroupRow` as an `if` on the emptiness of the month's group. -/
theorem yearGroupRow_eq (monthT : List MonthRow) (y m : ℤ) (s : Status) :
    yearGroupRow monthT y m s
      = if (monthT.filter fun x => x.year = y ∧ x.month = m ∧ x.status = s) = []
        then none
        else some (yearRowFor
          (monthT.filter fun x => x.year = y ∧ x.month = m ∧ x.status = s) y m s) := by
  unfold yearGroupRow
  cases hg : monthT.filter fun x => x.year = y ∧ x.month = m ∧ x.status = s with
  | nil => simp
  | cons a t => simp

/-- `totalGroupRow` as an `if` on the emptiness of the year's group. -/
theorem totalGroupRow_eq (yearT : List YearRow) (y : ℤ) (s : Status) :
    totalGroupRow yearT y s
      = if (yearT.filter fun x => x.year = y ∧ x.status = s) = [] then none
        else some (totalRowFor
          (yearT.filter fun x => x.year = y ∧ x.status = s) y s) := by
  unfold totalGroupRow
  cases hg : yearT.filter fun x => x.year = y ∧ x.status = s with
  | nil => simp
  | cons a t => simp

/-- Key fields of an aggregated `month_summary` row. -/
theorem monthRowFor_keys (g : List DayRow) (y m dd : ℤ) (st : Status) :
    (monthRowFor g y m dd st).year = y ∧ (monthRowFor g y m dd st).month = m
      ∧ (monthRowFor g y m dd st).day = dd
      ∧ (monthRowFor g y m dd st).status = st := by
  unfold monthRowFor
  split <;> exact ⟨rfl, rfl, rfl, rfl⟩

/-- Key fields of an aggregated `year_summary` row. -/
theorem yearRowFor_keys (g : List MonthRow) (y m : ℤ) (st : Status) :
    (yearRowFor g y m st).year = y ∧ (yearRowFor g y m st).month = m
      ∧ (yearRowFor g y m st).status = st := by
  unfold yearRowFor
  split <;> exact ⟨rfl, rfl, rfl⟩

/-- Key fields of an aggregated `total_summary` row. -/
theorem totalRowFor_keys (g : List YearRow) (y : ℤ) (st : Status) :
    (totalRowFor g y st).year = y ∧ (totalRowFor g y st).status = st := by
  unfold totalRowFor
  split <;> exact ⟨rfl, rfl⟩

/-- The inserted `year_summary` rows, filtered down to one
`(year, month, status)` key, are exactly that status's aggregated row. -/
theorem yearRows_filter (monthT : List MonthRow) (y m : ℤ) (st : Status) :
    ((yearRowsForMonth monthT y m).filter
        fun r => r.year = y ∧ r.month = m ∧ r.status = st)
      = (yearGroupRow monthT y m st).toList := by
  unfold yearRowsForMonth
  apply filterMap_allStatuses_filter
  intro s r hr
  rw [yearGroupRow_eq] at hr
  have hkeys : r.year = y ∧ r.month = m ∧ r.status = s := by
    split at hr
    · exact absurd hr (by simp)
    · obtain rfl : _ = r := Option.some_injective _ hr
      exact yearRowFor_keys _ y m s
  constructor
  · intro hq
    simp only [decide_eq_true_eq] at hq
    rw [← hkeys.2.2]
    exact hq.2.2
  · intro hsst
    subst hsst
    simp [hkeys.1, hkeys.2.1, hkeys.2.2]

/-- The inserted `total_summary` rows, filtered down to one
`(year, status)` key, are exactly that status's aggregated row. -/
theorem totalRows_filter (yearT : List YearRow) (y : ℤ) (st : Status) :
    ((totalRowsForYear yearT y).filter fun r => r.year = y ∧ r.status = st)
      = (totalGroupRow yearT y st).toList := by
  unfold totalRowsForYear
  apply filterMap_allStatuses_filter
  intro s r hr
  rw [totalGroupRow_eq] at hr
  have hkeys : r.year = y ∧ r.status = s := by
    split at hr
    · exact absurd hr (by simp)
    · obtain rfl : _ = r := Option.some_injective _ hr
      exact totalRowFor_keys _ y s
  constructor
  · intro hq
    simp only [decide_eq_true_eq] at hq
    rw [← hkeys.2]
    exact hq.2
  · intro hsst
    subst hsst
    simp [hkeys.1, hkeys.2]

/-- Rows surviving the month-key delete never match the month key again. -/
theorem old_year_nil (yearT : List YearRow) (y m : ℤ) (st : Status) :
    ((yearT.filter fun r => ¬ (r.year = y ∧ r.month = m)).filter
        fun r => r.year = y ∧ r.month = m ∧ r.status = st) = [] := by
  apply List.filter_eq_nil_iff.mpr
  intro a ha
  have h2 := List.of_mem_filter ha
  simp only [decide_eq_true_eq, decide_not, Bool.not_eq_true'] at h2 ⊢
  simp only [decide_eq_false_iff_not] at h2
  tauto

/-- Rows surviving the year-key delete never match the year key again. -/
theorem old_total_nil (totalT : List TotalRow) (y : ℤ) (st : Status) :
    ((totalT.filter fun r => ¬ (r.year = y)).filter
        fun r => r.year = y ∧ r.status = st) = [] := by
  apply List.filter_eq_nil_iff.mpr
  intro a ha
  have h2 := List.of_mem_filter ha
  simp only [decide_eq_true_eq, decide_not, Bool.not_eq_true'] at h2 ⊢
  simp only [decide_eq_false_iff_not] at h2
  tauto

/-- The ON row inserted into `month_summary` carries zero duration, no
energy or averaged fields, and the day's ON event count. -/
theorem monthRowsForDay_on {dayT : List DayRow} {dKey y m dd : ℤ} :
    ∀ r ∈ monthRowsForDay dayT dKey y m dd, r.status = Status.ON →
      r.total_time_s = 0 ∧ r.consumption_kw = none ∧ r.positive_kw = none
        ∧ r.negative_kw = none ∧ r.hp_temp_in = none ∧ r.hp_temp_out = none
        ∧ r.hp_temp_diff = none ∧ r.hp_activeflow_m3h = none
        ∧ r.hp_totalflow = none ∧ r.ts_ambient_temp = none
        ∧ r.ts_ambient_humidity = none
        ∧ r.times_a_day = (dayT.filter fun x =>
            x.day = dKey ∧ x.status = Status.ON).length := by
  intro r hr hON
  obtain ⟨s, hsmem, hs⟩ := List.mem_filterMap.mp hr
  rw [monthGroupRow_eq] at hs
  split at hs
  · exact absurd hs (by simp)
  · obtain rfl : _ = r := Option.some_injective _ hs
    obtain rfl : s = Status.ON :=
      ((monthRowFor_keys _ y m dd s).2.2.2).symm.trans hON
    unfold monthRowFor
    rw [if_pos rfl]
    exact ⟨rfl, rfl, rfl, rfl, rfl, rfl, rfl, rfl, rfl, rfl, rfl, rfl⟩

/-- The ON row inserted into `year_summary` carries zero duration, no
energy or averaged fields, and the month's summed ON event count. -/
theorem yearRowsForMonth_on {monthT : List MonthRow} {y m : ℤ} :
    ∀ r ∈ yearRowsForMonth monthT y m, r.status = Status.ON →
      r.total_time_s = 0 ∧ r.consumption_kw = none ∧ r.positive_kw = none
        ∧ r.negative_kw = none ∧ r.hp_temp_in = none ∧ r.hp_temp_out = none
        ∧ r.hp_temp_diff = none ∧ r.hp_activeflow_m3h = none
        ∧ r.hp_totalflow = none ∧ r.ts_ambient_temp = none
        ∧ r.ts_ambient_humidity = none
        ∧ r.times_a_month = ((monthT.filter fun x =>
            x.year = y ∧ x.month = m ∧ x.status = Status.ON).map
              fun x => x.times_a_day).sum := by
  intro r hr hON
  obtain ⟨s, hsmem, hs⟩ := List.mem_filterMap.mp hr
  rw [yearGroupRow_eq] at hs
  split at hs
  · exact absurd hs (by simp)
  · obtain rfl : _ = r := Option.some_injective _ hs
    obtain rfl : s = Status.ON :=
      ((yearRowFor_keys _ y m s).2.2).symm.trans hON
    unfold yearRowFor
    rw [if_pos rfl]
    exact ⟨rfl, rfl, rfl, rfl, rfl, rfl, rfl, rfl, rfl, rfl, rfl, rfl⟩

/-- The ON row inserted into `total_summary` carries zero duration, no
energy or averaged fields, and the year's summed ON event count. -/
theorem totalRowsForYear_on {yearT : List YearRow} {y : ℤ} :
    ∀ r ∈ totalRowsForYear yearT y, r.status = Status.ON →
      r.total_time_s = 0 ∧ r.consumption_kw = none ∧ r.positive_kw = none
        ∧ r.negative_kw = none ∧ r.hp_temp_in = none ∧ r.hp_temp_out = none
        ∧ r.hp_temp_diff = none ∧ r.hp_activeflow_m3h = none
        ∧ r.hp_totalflow = none ∧ r.ts_ambient_temp = none
        ∧ r.ts_ambient_humidity = none
        ∧ r.times_a_year = ((yearT.filter fun x =>
            x.year = y ∧ x.status = Status.ON).map
              fun x => x.times_a_month).sum := by
  intro r hr hON
  obtain ⟨s, hsmem, hs⟩ := List.mem_filterMap.mp hr
  rw [totalGroupRow_eq] at hs
  split at hs
  · exact absurd hs (by simp)
  · obtain rfl : _ = r := Option.some_injective _ hs
    obtain rfl : s = Status.ON :=
      ((totalRowFor_keys _ y s).2).symm.trans hON
    unfold totalRowFor
    rw [if_pos rfl]
    exact ⟨rfl, rfl, rfl, rfl, rfl, rfl, rfl, rfl, rfl, rfl, rfl, rfl⟩

/-- ON rows of the updated `month_summary` table still carry zero
duration, given the invariant on the incoming table. -/
theorem updateMonthTable_on {monthT : List MonthRow} {dayT : List DayRow}
    {dKey y m dd : ℤ}
    (hMonON : ∀ r ∈ monthT, r.status = Status.ON → r.total_time_s = 0) :
    ∀ r ∈ updateMonthTable monthT dayT dKey y m dd,
      r.status = Status.ON → r.total_time_s = 0 := by
  intro r hr hON
  rcases List.mem_append.mp hr with h | h
  · exact hMonON r (List.mem_filter.mp h).1 hON
  · exact (monthRowsForDay_on r h hON).1

/-- ON rows of the updated `year_summary` table still carry zero
duration, given the invariant on the incoming table. -/
theorem updateYearTable_on {yearT : List YearRow} {monthT : List MonthRow}
    {y m : ℤ}
    (hYearON : ∀ r ∈ yearT, r.status = Status.ON → r.total_time_s = 0) :
    ∀ r ∈ updateYearTable yearT monthT y m,
      r.status = Status.ON → r.total_time_s = 0 := by
  intro r hr hON
  rcases List.mem_append.mp hr with h | h
  · exact hYearON r (List.mem_filter.mp h).1 hON
  · exact (yearRowsForMonth_on r h hON).1

/-- Claim C7: after the roll-up aggregation runs for a day, for every
status the sum of `month_summary` durations over the days of the month
equals the `year_summary` duration for that (year, month, status), and
transitively the sum of `year_summary` durations over the months of the
year equals the `total_summary` duration for that (year, status); the
inserted ON rows carry zero duration and no energy or averaged fields,
only an event count. The incoming tables are assumed to satisfy the ON
zero-duration invariant that the aggregation itself maintains. -/
theorem rollup_consistency (dayT : List DayRow) (monthT : List MonthRow)
    (yearT : List YearRow) (totalT : List TotalRow) (dKey y m dd : ℤ)
    (hMonON : ∀ r ∈ monthT, r.status = Status.ON → r.total_time_s = 0)
    (hYearON : ∀ r ∈ yearT, r.status = Status.ON → r.total_time_s = 0) :
    (∀ st, monthDur (updateMYT dayT monthT yearT totalT dKey y m dd).1 y m st
        = yearDur (updateMYT dayT monthT yearT totalT dKey y m dd).2.1 y m st)
    ∧ (∀ st,
        yearDurAll (updateMYT dayT monthT yearT totalT dKey y m dd).2.1 y st
        = totalDur (updateMYT dayT monthT yearT totalT dKey y m dd).2.2 y st)
    ∧ (∀ r ∈ monthRowsForDay dayT dKey y m dd, r.status = Status.ON →
        r.total_time_s = 0 ∧ r.consumption_kw = none ∧ r.positive_kw = none
          ∧ r.negative_kw = none ∧ r.hp_temp_in = none ∧ r.hp_temp_out = none
          ∧ r.hp_temp_diff = none ∧ r.hp_activeflow_m3h = none
          ∧ r.hp_totalflow = none ∧ r.ts_ambient_temp = none
          ∧ r.ts_ambient_humidity = none
          ∧ r.times_a_day = (dayT.filter fun x =>
              x.day = dKey ∧ x.status = Status.ON).length)
    ∧ (∀ r ∈ yearRowsForMonth
          (updateMYT dayT monthT yearT totalT dKey y m dd).1 y m,
        r.status = Status.ON → r.total_time_s = 0 ∧ r.consumption_kw = none
          ∧ r.hp_temp_in = none ∧ r.hp_temp_out = none)
    ∧ (∀ r ∈ totalRowsForYear
          (updateMYT dayT monthT yearT totalT dKey y m dd).2.1 y,
        r.status = Status.ON → r.total_time_s = 0 ∧ r.consumption_kw = none
          ∧ r.hp_temp_in = none ∧ r.hp_temp_out = none) := by
  refine ⟨?_, ?_, ?_, ?_, ?_⟩
  · intro st
    dsimp only [updateMYT]
    unfold yearDur updateYearTable
    rw [List.filter_append, old_year_nil, List.nil_append, yearRows_filter,
      yearGroupRow_eq]
    by_cases hg : ((updateMonthTable monthT dayT dKey y m dd).filter fun x =>
        x.year = y ∧ x.month = m ∧ x.status = st) = []
    · rw [if_pos hg]
      unfold monthDur
      rw [hg]
      rfl
    · rw [if_neg hg]
      have hrhs : ((Option.toList (some (yearRowFor
            ((updateMonthTable monthT dayT dKey y m dd).filter fun x =>
              x.year = y ∧ x.month = m ∧ x.status = st) y m st))).map
          fun r => r.total_time_s).sum
          = (yearRowFor ((updateMonthTable monthT dayT dKey y m dd).filter
              fun x => x.year = y ∧ x.month = m ∧ x.status = st) y m st).total_time_s := by
        simp
      rw [hrhs]
      by_cases hON : st = Status.ON
      · subst hON
        have h0 : (yearRowFor ((updateMonthTable monthT dayT dKey y m dd).filter
            fun x => x.year = y ∧ x.month = m ∧ x.status = Status.ON) y m
            Status.ON).total_time_s = 0 := by
          unfold yearRowFor
          rw [if_pos rfl]
        rw [h0]
        unfold monthDur
        apply List.sum_eq_zero
        intro x hx
        obtain ⟨rr, hrr, rfl⟩ := List.mem_map.mp hx
        have hmem := List.mem_filter.mp hrr
        have hstat : rr.status = Status.ON := by
          have h2 := hmem.2
          simp only [decide_eq_true_eq] at h2
          exact h2.2.2
        exact updateMonthTable_on hMonON rr hmem.1 hstat
      · have hteq : (yearRowFor ((updateMonthTable monthT dayT dKey y m dd).filter
            fun x => x.year = y ∧ x.month = m ∧ x.status = st) y m
            st).total_time_s
            = ((((updateMonthTable monthT dayT dKey y m dd).filter
                fun x => x.year = y ∧ x.month = m ∧ x.status = st).map
                  fun r => r.total_time_s)).sum := by
          unfold yearRowFor
          rw [if_neg hON]
        rw [hteq]
        rfl
  · intro st
    dsimp only [updateMYT]
    unfold totalDur updateTotalTable
    rw [List.filter_append, old_total_nil, List.nil_append, totalRows_filter,
      totalGroupRow_eq]
    by_cases hg : ((updateYearTable yearT
        (updateMonthTable monthT dayT dKey y m dd) y m).filter fun x =>
          x.year = y ∧ x.status = st) = []
    · rw [if_pos hg]
      unfold yearDurAll
      rw [hg]
      rfl
    · rw [if_neg hg]
      have hrhs : ((Option.toList (some (totalRowFor
            ((updateYearTable yearT (updateMonthTable monthT dayT dKey y m dd)
              y m).filter fun x => x.year = y ∧ x.status = st) y st))).map
          fun r => r.total_time_s).sum
          = (totalRowFor ((updateYearTable yearT
              (updateMonthTable monthT dayT dKey y m dd) y m).filter
              fun x => x.year = y ∧ x.status = st) y st).total_time_s := by
        simp
      rw [hrhs]
      by_cases hON : st = Status.ON
      · subst hON
        have h0 : (totalRowFor ((updateYearTable yearT
            (updateMonthTable monthT dayT dKey y m dd) y m).filter
            fun x => x.year = y ∧ x.status = Status.ON) y
            Status.ON).total_time_s = 0 := by
          unfold totalRowFor
          rw [if_pos rfl]
        rw [h0]
        unfold yearDurAll
        apply List.sum_eq_zero
        intro x hx
        obtain ⟨rr, hrr, rfl⟩ := List.mem_map.mp hx
        have hmem := List.mem_filter.mp hrr
        have hstat : rr.status = Status.ON := by
          have h2 := hmem.2
          simp only [decide_eq_true_eq] at h2
          exact h2.2
        exact updateYearTable_on hYearON rr hmem.1 hstat
      · have hteq : (totalRowFor ((updateYearTable yearT
            (updateMonthTable monthT dayT dKey y m dd) y m).filter
            fun x => x.year = y ∧ x.status = st) y st).total_time_s
            = ((((updateYearTable yearT (updateMonthTable monthT dayT dKey
                y m dd) y m).filter fun x => x.year = y ∧ x.status = st).map
                  fun r => r.total_time_s)).sum := by
          unfold totalRowFor
          rw [if_neg hON]
        rw [hteq]
        rfl
  · exact monthRowsForDay_on
  · intro r hr hON
    have h := yearRowsForMonth_on r hr hON
    exact ⟨h.1, h.2.1, h.2.2.2.2.1, h.2.2.2.2.2.1⟩
  · intro r hr hON
    have h := totalRowsForYear_on r hr hON
    exact ⟨h.1, h.2.1, h.2.2.2.2.1, h.2.2.2.2.2.1⟩

/-- A one-row `day_summary` table: a 100 s Standby segment on local day 0
of 2026-01-15. -/
def c7dayT : List DayRow :=
  [ { day := 0, day_start_utc_s := 0, status := Status.S,
      start_ts_utc_s := 10, end_ts_utc_s := 110, total_time_s := 100 } ]

/-- Witness for C7 at a concrete input: rolling up the one-day table into
empty month/year/total tables keeps the per-status durations consistent
across all three levels. -/
theorem rollup_consistency_witness :
    monthDur (updateMYT c7dayT [] [] [] 0 2026 1 15).1 2026 1 Status.S
      = yearDur (updateMYT c7dayT [] [] [] 0 2026 1 15).2.1 2026 1 Status.S
    ∧ yearDurAll (updateMYT c7dayT [] [] [] 0 2026 1 15).2.1 2026 Status.S
      = totalDur (updateMYT c7dayT [] [] [] 0 2026 1 15).2.2 2026 Status.S := by
  have h := rollup_consistency c7dayT [] [] [] 0 2026 1 15 (by simp) (by simp)
  exact ⟨h.1 Status.S, h.2.1 Status.S⟩

end HeatPump
